import Mathlib

/-!
Shallow embedding of the drizzlepac output-assembly layer
(`lib/drizzlepac/outputimage.py`) and pixel mapper (`lib/drizzlepac/calc_pixmap.py`).

FITS headers are modelled as ordered lists of (key, value, comment) cards.
PyFITS keyword access is case-insensitive and stores keys upper-cased; the
embedding normalises every keyword literal to upper case at the call site
(e.g. the source's `del scihdr['bscale']` becomes a delete of `"BSCALE"`),
so header operations compare keys by plain string equality.
-/

/-- A FITS header card value: string, numeric (modelled exactly as a rational),
or boolean.  Numeric values that are integers in the source are embedded as
rationals. -/
inductive HVal where
  | str (s : String)
  | num (q : ℚ)
  | bool (b : Bool)
deriving DecidableEq, Repr, Inhabited

/-- One FITS header card. -/
structure Card where
  key : String
  val : HVal
  comment : String
deriving DecidableEq, Repr, Inhabited

/-- A FITS header: an ordered list of cards. -/
abbrev Header := List Card

/-- Look up the value of the first card carrying the given keyword
(pyfits `hdr[key]`, returning `none` where pyfits raises `KeyError`). -/
def hdrFind : Header → String → Option HVal
  | [], _ => none
  | c :: rest, k => if c.key = k then some c.val else hdrFind rest k

/-- pyfits `hdr.has_key(key)` / `key in hdr`. -/
def hdrHasKey (h : Header) (k : String) : Bool :=
  (hdrFind h k).isSome

/-- pyfits `hdr.update(key, value[, comment])`: replace the value (and, when a
comment is supplied, the comment) of an existing card, else append a new card. -/
def hdrUpdate : Header → String → HVal → Option String → Header
  | [], k, v, c => [⟨k, v, c.getD ""⟩]
  | card :: rest, k, v, c =>
      if card.key = k then ⟨k, v, c.getD card.comment⟩ :: rest
      else card :: hdrUpdate rest k v c

/-- Remove the first card carrying the given keyword. -/
def hdrEraseFirst : Header → String → Header
  | [], _ => []
  | c :: rest, k => if c.key = k then rest else c :: hdrEraseFirst rest k

/-- pyfits `del hdr[key]`: delete the card if present, otherwise `none`
(standing for the `KeyError` the source raises). -/
def hdrDel (h : Header) (k : String) : Option Header :=
  if hdrHasKey h k then some (hdrEraseFirst h k) else none

/-- Remove every card carrying the given keyword. -/
def hdrEraseAll (h : Header) (k : String) : Header :=
  h.filter (fun c => c.key ≠ k)

/-- pyfits `hdr.add_history(text)`: append a HISTORY card at the end. -/
def hdrAddHistory (h : Header) (s : String) : Header :=
  h ++ [⟨"HISTORY", HVal.str s, ""⟩]

-- Basic lemmas about the header operations.

theorem hdrFind_update_self (h : Header) (k : String) (v : HVal) (c : Option String) :
    hdrFind (hdrUpdate h k v c) k = some v := by
  induction h with
  | nil => simp [hdrUpdate, hdrFind]
  | cons card rest ih =>
      by_cases hk : card.key = k
      · simp [hdrUpdate, hk, hdrFind]
      · simp [hdrUpdate, hk, hdrFind, ih]

theorem hdrFind_update_ne (h : Header) {k k' : String} (v : HVal) (c : Option String)
    (hne : k' ≠ k) : hdrFind (hdrUpdate h k v c) k' = hdrFind h k' := by
  have hne' : ¬ k = k' := fun he => hne he.symm
  induction h with
  | nil => simp [hdrUpdate, hdrFind, hne']
  | cons card rest ih =>
      by_cases hk : card.key = k
      · have hck : ¬ card.key = k' := by rw [hk]; exact hne'
        simp [hdrUpdate, hk, hdrFind, hne', hck]
      · by_cases hk' : card.key = k'
        · simp [hdrUpdate, hdrFind, hk, hk', hne]
        · simp [hdrUpdate, hk, hdrFind, hk', ih]

theorem hdrHasKey_update_self (h : Header) (k : String) (v : HVal) (c : Option String) :
    hdrHasKey (hdrUpdate h k v c) k = true := by
  simp [hdrHasKey, hdrFind_update_self]

theorem hdrHasKey_update_ne (h : Header) {k k' : String} (v : HVal) (c : Option String)
    (hne : k' ≠ k) : hdrHasKey (hdrUpdate h k v c) k' = hdrHasKey h k' := by
  simp [hdrHasKey, hdrFind_update_ne h v c hne]

theorem hdrFind_eraseFirst_ne (h : Header) {k k' : String} (hne : k' ≠ k) :
    hdrFind (hdrEraseFirst h k) k' = hdrFind h k' := by
  have hne' : ¬ k = k' := fun he => hne he.symm
  induction h with
  | nil => simp [hdrEraseFirst]
  | cons card rest ih =>
      by_cases hk : card.key = k
      · have hck : ¬ card.key = k' := by rw [hk]; exact hne'
        simp [hdrEraseFirst, hk, hdrFind, hck, hne']
      · by_cases hk' : card.key = k'
        · simp [hdrEraseFirst, hdrFind, hk, hk', hne]
        · simp [hdrEraseFirst, hk, hdrFind, hk', ih]

theorem hdrDel_some_find {h h' : Header} {k : String} (hd : hdrDel h k = some h')
    {k' : String} (hne : k' ≠ k) : hdrFind h' k' = hdrFind h k' := by
  unfold hdrDel at hd
  by_cases hk : hdrHasKey h k
  · simp [hk] at hd
    subst hd
    exact hdrFind_eraseFirst_ne h hne
  · simp [hk] at hd

theorem hdrEraseAll_cons (card : Card) (rest : Header) (k : String) :
    hdrEraseAll (card :: rest) k =
      if card.key = k then hdrEraseAll rest k else card :: hdrEraseAll rest k := by
  by_cases hc : card.key = k <;> simp [hdrEraseAll, hc]

theorem hdrFind_eraseAll (h : Header) (k k' : String) :
    hdrFind (hdrEraseAll h k) k' = if k' = k then none else hdrFind h k' := by
  induction h with
  | nil => simp [hdrEraseAll, hdrFind]
  | cons card rest ih =>
      rw [hdrEraseAll_cons]
      by_cases hc : card.key = k
      · rw [if_pos hc, ih]
        by_cases he : k' = k
        · simp [he]
        · have hck : ¬ card.key = k' := by rw [hc]; exact fun h2 => he h2.symm
          simp [he, hdrFind, hck]
      · rw [if_neg hc]
        by_cases hk' : card.key = k'
        · have he : ¬ k' = k := by
            intro h2
            exact hc (by rw [hk', h2])
          simp [hdrFind, hk', he]
        · simp [hdrFind, hk', ih]

theorem hdrFind_append_single (h : Header) (c : Card) (k : String) :
    hdrFind (h ++ [c]) k =
      ((hdrFind h k).orElse (fun _ => if c.key = k then some c.val else none)) := by
  induction h with
  | nil => simp [hdrFind]
  | cons card rest ih =>
      by_cases hk : card.key = k
      · simp [hdrFind, hk]
      · simp [hdrFind, hk, ih]

theorem hdrFind_addHistory (h : Header) (s : String) {k : String}
    (hne : k ≠ "HISTORY") : hdrFind (hdrAddHistory h s) k = hdrFind h k := by
  unfold hdrAddHistory
  rw [hdrFind_append_single]
  have : ¬ ("HISTORY" : String) = k := fun he => hne he.symm
  cases hf : hdrFind h k <;> simp [Option.orElse, this]

/-!
Data model for `OutputImage` (`outputimage.py`).

A `ChipRecord` is one element of the `parlist` handed to `OutputImage`,
already merged with the shared `input_pars` dictionary (the constructor's
`p.update(input_pars)` loop; the merge itself only copies shared fields into
each record and is not modelled separately).  Paths the source tests with
`is None` are `Option String`; paths only tested for truthiness are plain
strings with `""` playing the role of an empty/absent path.
-/

structure ChipRecord where
  output : String
  outnx : Nat
  outny : Nat
  blotImage : String
  blotnx : Nat
  blotny : Nat
  outSingle : String
  outSWeight : String
  outSContext : Option String
  outFinal : String
  outSci : String
  outWeight : String
  outContext : Option String
  texptime : ℚ
  texpstart : ℚ
  texpend : ℚ
  nimages : Nat
  data : String
  driz_version : String
  exptime : ℚ
  singleDrizMask : String
  finalMask : String
  wt_scl : String
  kernel : String
  pixfrac : ℚ
  fillval : Option String
  driz_wcskey : String
  scale : ℚ
  idcscale : ℚ
deriving DecidableEq, Repr, Inhabited

/-- The output WCS model consumed by `addWCSKeywords` (orientation, CD matrix,
reference coordinates, solution name and projection types). -/
structure WCSInfo where
  orientat : ℚ
  cd11 : ℚ
  cd12 : ℚ
  cd21 : ℚ
  cd22 : ℚ
  crval1 : ℚ
  crval2 : ℚ
  crpix1 : ℚ
  crpix2 : ℚ
  name : String
  ctype1 : String
  ctype2 : String
deriving DecidableEq, Repr, Inhabited

/-- Python truthiness of a string (`if self.outweight:`). -/
def strTruthy (s : String) : Bool := !s.isEmpty

/-- Python truthiness of an optional string (`None` and `""` are falsy). -/
def optStrTruthy : Option String → Bool
  | none => false
  | some s => !s.isEmpty

/-- Python truthiness of a number (`if self.texptime:`). -/
def qTruthy (q : ℚ) : Bool := q != 0

/-- Python truthiness of an optional header (`if scihdr:`; `None` and an empty
header are falsy). -/
def optHdrTruthy : Option Header → Bool
  | none => false
  | some h => !h.isEmpty

/-- The state `OutputImage.__init__` resolves from the chip list and the three
mode flags (`build`, `single`, `blot`), together with the attributes set by
`set_bunit` / `set_units` (defaults `None` / `'cps'`). -/
structure OutputImageState where
  build : Bool
  single : Bool
  blot : Bool
  parlist : List ChipRecord
  wcs : Option WCSInfo
  bunit : Option String
  units : String
  output : String
  shape : Nat × Nat
  outdata : String
  outweight : String
  outcontext : Option String
  texptime : ℚ
  expstart : ℚ
  expend : ℚ

/-- `OutputImage.__init__(plist, input_pars, build, wcs, single, blot)`
(`outputimage.py` lines 50-141).  `plist[0]` / `plist[-1]` are embedded with a
default record for the empty list (the source would raise there). -/
def OutputImage_init (plist : List ChipRecord) (build single blot : Bool)
    (wcs : Option WCSInfo) : OutputImageState :=
  let p0 := plist.getD 0 default
  let plast := plist.getD (plist.length - 1) default
  -- `if not blot: output/shape from 'output'/'outny'/'outnx' else from blot fields`
  let output0 := if blot then p0.blotImage else p0.output
  let shape := if blot then (p0.blotny, p0.blotnx) else (p0.outny, p0.outnx)
  -- `if single: ... else: ...`
  let od0 := if single then p0.outSingle else (if build then p0.outFinal else p0.outSci)
  let ow := if single then p0.outSWeight else p0.outWeight
  let oc := if single then p0.outSContext else p0.outContext
  let tt := p0.texptime
  let ts := p0.texpstart
  let te := if single then p0.texpend else plast.texpend
  -- `if blot: _outdata = plist[0]['blotImage']`
  let od := if blot then p0.blotImage else od0
  -- `if not self.build or single: self.output = _outdata`
  let out := if (!build) || single then od else output0
  { build := build, single := single, blot := blot, parlist := plist, wcs := wcs,
    bunit := none, units := "cps", output := out, shape := shape,
    outdata := od, outweight := ow, outcontext := oc,
    texptime := tt, expstart := ts, expend := te }

/-!
Provenance keyword generation (`DRIZ_KEYWORDS`, `OutputImage.addDrizKeywords`
and `writeDrizKeywords`).
-/

/-- Python string slicing `s[:n]` (by characters/code points), used for the
`[:44]`/`[:64]` truncations of `addDrizKeywords`. -/
def strTake (s : String) (n : Nat) : String := String.mk (s.data.take n)

theorem strTake_of_le (s : String) {n : Nat} (h : s.length ≤ n) : strTake s n = s := by
  unfold strTake
  rw [List.take_of_length_le h]

/-- Resolution of the `WTSC` value (`outputimage.py` lines 476-478):
`if pl['wt_scl'] == 'exptime': _wtscl = pl['exptime']`,
`elif pl['wt_scl'] == 'expsq': _wtscl = pl['exptime']*pl['exptime']`,
`else: _wtscl = pl['wt_scl']`. -/
def resolveWtScl (wt_scl : String) (exptime : ℚ) : HVal :=
  if wt_scl = "exptime" then HVal.num exptime
  else if wt_scl = "expsq" then HVal.num (exptime * exptime)
  else HVal.str wt_scl

/-- The per-chip keyword record built inside `addDrizKeywords`: the
`DRIZ_KEYWORDS` defaults copied and overwritten with the chip's values, plus
the `SCAL`/`ISCL` entries appended per chip.  Entries are
(field code, value, comment); `[:44]`/`[:64]` slices are `String.take`. -/
def chipDrizDict (single : Bool) (units : String) (pl : ChipRecord) :
    List (String × HVal × String) :=
  [ ("VER",  HVal.str (strTake pl.driz_version 44), "Drizzle, task version"),
    ("GEOM", HVal.str "wcs", "Drizzle, source of geometric information"),
    ("DATA", HVal.str (strTake pl.data 64), "Drizzle, input data image"),
    ("DEXP", HVal.num pl.exptime, "Drizzle, input image exposure time (s)"),
    ("OUDA", HVal.str (strTake pl.outFinal 64), "Drizzle, output data image"),
    ("OUWE", HVal.str (strTake pl.outWeight 64), "Drizzle, output weighting image"),
    ("OUCO", HVal.str (match pl.outContext with
                       | none => ""
                       | some s => strTake s 64), "Drizzle, output context image"),
    ("MASK", HVal.str (strTake (if single then pl.singleDrizMask else pl.finalMask) 64),
      "Drizzle, input weighting image"),
    ("WTSC", resolveWtScl pl.wt_scl pl.exptime, "Drizzle, weighting factor for input image"),
    ("KERN", HVal.str pl.kernel, "Drizzle, form of weight distribution kernel"),
    ("PIXF", HVal.num pl.pixfrac, "Drizzle, linear size of drop"),
    ("COEF", HVal.str "SIP", "Drizzle, source of coefficients"),
    ("OUUN", HVal.str units, "Drizzle, units of output image - counts or cps"),
    ("FVAL", HVal.str (match pl.fillval with
                       | none => "INDEF"
                       | some s => s), "Drizzle, fill value for zero weight output pix"),
    ("WKEY", HVal.str pl.driz_wcskey, "Input image WCS Version used"),
    ("SCAL", HVal.num pl.scale, "Drizzle, pixel size (arcsec) of output image"),
    ("ISCL", HVal.num pl.idcscale, "Drizzle, default IDCTAB pixel size(arcsec)") ]

/-- `'D%03d' % imgnum`: decimal rendering zero-padded to a minimum of three
digits. -/
def fmt03 (n : Nat) : String :=
  let s := toString n
  if s.length < 3 then String.mk (List.replicate (3 - s.length) '0' ++ s.data) else s

/-- `writeDrizKeywords(hdr, imgnum, drizdict)` (`outputimage.py` lines 643-657):
every field of the record is written under `'D%03d' % imgnum` plus the field
code.  (The source's `if val is None: val = ""` guard has no counterpart here
because `HVal` has no null value.) -/
def writeDrizKeywords (hdr : Header) (imgnum : Nat)
    (dict : List (String × HVal × String)) : Header :=
  dict.foldl (fun h e =>
    hdrUpdate h (("D" ++ fmt03 imgnum) ++ e.1) e.2.1 (some e.2.2)) hdr

/-- The chip loop of `addDrizKeywords`: `_imgnum` starts at 0 and is
incremented before each chip is written, so chips are numbered from 1 in list
order. -/
def addDrizChips (single : Bool) (units : String) :
    Header → Nat → List ChipRecord → Header
  | hdr, _, [] => hdr
  | hdr, imgnum, pl :: rest =>
      addDrizChips single units
        (writeDrizKeywords hdr (imgnum + 1) (chipDrizDict single units pl))
        (imgnum + 1) rest

/-- The trailing `versions` block of `addDrizKeywords`: one descriptive HISTORY
line plus one line per component/version pair. -/
def addVersionHistory (h : Header) : Option (List (String × String)) → Header
  | none => h
  | some vs =>
      vs.foldl (fun h kv => hdrAddHistory h ("    " ++ kv.1 ++ " Version " ++ kv.2))
        (hdrAddHistory h "PyDrizzle processing performed using: ")

/-- `OutputImage.addDrizKeywords(hdr, versions)` (`outputimage.py`
lines 443-503). -/
def addDrizKeywords (st : OutputImageState) (hdr : Header)
    (versions : Option (List (String × String))) : Header :=
  addVersionHistory (addDrizChips st.single st.units hdr 0 st.parlist) versions

/-!
Template acquisition and cleanup (`getTemplates` / `cleanTemplates`), the
collision policy, primary-header population, science-header fixups, WCS
keyword sync and the final emission of `OutputImage.writeFITS`.
-/

/-- Python-level failures surfaced by `writeFITS` and its helpers:
`IOError` from the collision policy, `KeyError` from an unguarded
`del hdr[key]`, and `TypeError`/`AttributeError` from operating on `None` or
on a non-string value. -/
inductive WErr where
  | ioError
  | keyError (k : String)
  | typeError
deriving DecidableEq, Repr

/-- `RESERVED_KEYS` (`outputimage.py` line 11). -/
def RESERVED_KEYS : List String :=
  ["NAXIS", "BITPIX", "DATE", "IRAF-TLM", "XTENSION", "EXTNAME", "EXTVER"]

/-- `WCS_KEYWORDS` (`outputimage.py` lines 15-16). -/
def WCS_KEYWORDS : List String :=
  ["CD1_1", "CD1_2", "CD2_1", "CD2_2", "CRPIX1",
   "CRPIX2", "CRVAL1", "CRVAL2", "CTYPE1", "CTYPE2", "WCSNAME"]

/-- The filesystem as seen through `fileutil.findFile` / `removeFile` /
`writeto`: the set of existing output paths. -/
structure FS where
  files : List String
deriving DecidableEq, Repr

/-- `fileutil.findFile(path)`. -/
def FS.found (fs : FS) (p : String) : Bool := fs.files.contains p

/-- `fileutil.removeFile(path)` (removes the path when present; absent paths
are left alone). -/
def FS.removeFile (fs : FS) (p : String) : FS := ⟨fs.files.filter (fun q => q ≠ p)⟩

/-- `writeto(path)`: the path now exists. -/
def FS.add (fs : FS) (p : String) : FS := ⟨fs.files ++ [p]⟩

/-- The result of the external `fitsblender` call inside `getTemplates`:
the four template headers (science/error/dq may be `None`) plus whether a
combined-metadata table was produced. -/
structure RawTemplates where
  prihdr : Header
  scihdr : Option Header
  errhdr : Option Header
  dqhdr : Option Header
  hasTab : Bool

/-- The single `try:` block of `cleanTemplates` (`outputimage.py` lines
509-518): the six deletes run in order and the first failure (a `KeyError`
from a missing keyword, or a `TypeError` from a `None` header) silently aborts
all remaining deletes. -/
def bscaleDeletes (sci err dq : Option Header) :
    Option Header × Option Header × Option Header :=
  match sci with
  | none => (sci, err, dq)
  | some s0 =>
    match hdrDel s0 "BSCALE" with
    | none => (some s0, err, dq)
    | some s1 =>
      match hdrDel s1 "BZERO" with
      | none => (some s1, err, dq)
      | some s2 =>
        match err with
        | none => (some s2, err, dq)
        | some e0 =>
          match hdrDel e0 "BSCALE" with
          | none => (some s2, some e0, dq)
          | some e1 =>
            match hdrDel e1 "BZERO" with
            | none => (some s2, some e1, dq)
            | some e2 =>
              match dq with
              | none => (some s2, some e2, dq)
              | some d0 =>
                match hdrDel d0 "BSCALE" with
                | none => (some s2, some e2, some d0)
                | some d1 =>
                  match hdrDel d1 "BZERO" with
                  | none => (some s2, some e2, some d1)
                  | some d2 => (some s2, some e2, some d2)

/-- `scihdr[keyword]` inside the propagation loop: raises `TypeError` on a
`None` science header and `KeyError` on a missing keyword. -/
def sciLookup (sci : Option Header) (k : String) : Except WErr HVal :=
  match sci with
  | none => Except.error WErr.typeError
  | some s =>
    match hdrFind s k with
    | none => Except.error (WErr.keyError k)
    | some v => Except.ok v

/-- The WCS-keyword propagation loop of `cleanTemplates` (`outputimage.py`
lines 524-528): copy each keyword of `WCS_KEYWORDS` from the science header
into the error and data-quality headers when they lack it. -/
def propagateWCS (sci : Option Header) :
    Header → Header → List String → Except WErr (Header × Header)
  | err, dq, [] => Except.ok (err, dq)
  | err, dq, k :: rest => do
      let err' ← if hdrHasKey err k then pure err else do
        let v ← sciLookup sci k
        pure (hdrUpdate err k v none)
      let dq' ← if hdrHasKey dq k then pure dq else do
        let v ← sciLookup sci k
        pure (hdrUpdate dq k v none)
      propagateWCS sci err' dq' rest

/-- `cleanTemplates(scihdr, errhdr, dqhdr)` (`outputimage.py` lines 506-528). -/
def cleanTemplates (sci err dq : Option Header) :
    Except WErr (Option Header × Option Header × Option Header) :=
  let (sci1, err1, dq1) := bscaleDeletes sci err dq
  -- `if errhdr != None and dqhdr != None:`
  match err1, dq1 with
  | some e, some d => do
      let (e', d') ← propagateWCS sci1 e d WCS_KEYWORDS
      Except.ok (sci1, some e', some d')
  | _, _ => Except.ok (sci1, err1, dq1)

/-- Modelled from the spec: `fitsblender.blendheaders.remove_distortion_keywords`
is not part of this repository; per the spec it "removes any
distortion-specific keywords from the header".  The set of distortion-specific
keywords is a parameter. -/
def remove_distortion_keywords (distKeys : List String) (h : Header) : Header :=
  distKeys.foldl hdrEraseAll h

/-- `addWCSKeywords(wcs, hdr, blot)` (`outputimage.py` lines 546-567). -/
def addWCSKeywords (w : WCSInfo) (hdr : Header) (blot : Bool)
    (distKeys : List String) : Header :=
  let h := hdrUpdate hdr "ORIENTAT" (HVal.num w.orientat) none
  let h := hdrUpdate h "CD1_1" (HVal.num w.cd11) none
  let h := hdrUpdate h "CD1_2" (HVal.num w.cd12) none
  let h := hdrUpdate h "CD2_1" (HVal.num w.cd21) none
  let h := hdrUpdate h "CD2_2" (HVal.num w.cd22) none
  let h := hdrUpdate h "CRVAL1" (HVal.num w.crval1) none
  let h := hdrUpdate h "CRVAL2" (HVal.num w.crval2) none
  let h := hdrUpdate h "CRPIX1" (HVal.num w.crpix1) none
  let h := hdrUpdate h "CRPIX2" (HVal.num w.crpix2) none
  let h := hdrUpdate h "WCSNAME" (HVal.str w.name) none
  let h := hdrUpdate h "VAFACTOR" (HVal.num 1) none
  -- `if not hdr.has_key('ctype1'): update both CTYPE keywords`
  let h := if !hdrHasKey h "CTYPE1" then
      hdrUpdate (hdrUpdate h "CTYPE1" (HVal.str w.ctype1) none)
        "CTYPE2" (HVal.str w.ctype2) none
    else h
  if !blot then remove_distortion_keywords distKeys h else h

/-- The collision policy of `writeFITS` (`outputimage.py` lines 164-205),
returning the filesystem after any deletions together with the initial
`NEXTEND` value.  Note that in the `build == False` section the source calls
`fileutil.removeFile` outside the `findFile` check and raises `IOError`
whenever `overwrite` is false, in both cases regardless of whether the weight
or context file actually exists. -/
def collisionPhase (st : OutputImageState) (overwrite : Bool) (fs : FS) :
    Except WErr (FS × Nat) := do
  let fs ← if FS.found fs st.output then
      if overwrite then pure (FS.removeFile fs st.output)
      else throw WErr.ioError
    else pure fs
  if st.build then
    Except.ok (fs, 3)
  else do
    let fs ← if strTruthy st.outweight then
        if overwrite then pure (FS.removeFile fs st.outweight)
        else throw WErr.ioError
      else pure fs
    let fs ← if optStrTruthy st.outcontext then
        if overwrite then pure (FS.removeFile fs (st.outcontext.getD ""))
        else throw WErr.ioError
      else pure fs
    Except.ok (fs, 0)

/-- Primary-header population of `writeFITS` (`outputimage.py` lines 229-270):
`EXTEND`, `NEXTEND`, `FILENAME`, `ROOTNAME` (truncated at a `_drz` marker if
present), the exposure-time window when `texptime` is truthy, `ASN_MTYP`,
completion of `DRIZCORR`/`DITHCORR`, `NDRIZIM`, and - unless this is a blot
product - the provenance keywords. -/
def primaryBase (st : OutputImageState) (prihdr : Header) (nextend : Nat) : Header :=
  let h := hdrUpdate prihdr "EXTEND" (HVal.bool true) none
  let h := hdrUpdate h "NEXTEND" (HVal.num nextend) none
  let h := hdrUpdate h "FILENAME" (HVal.str st.output) none
  -- `_indx = self.output.find('_drz'); ROOTNAME = output[:_indx]` if found
  let root := (st.output.splitOn "_drz").headD st.output
  let h := hdrUpdate h "ROOTNAME" (HVal.str root) none
  let h := if qTruthy st.texptime then
      let h := hdrUpdate h "EXPTIME" (HVal.num st.texptime) none
      let h := hdrUpdate h "EXPSTART" (HVal.num st.expstart) none
      hdrUpdate h "EXPEND" (HVal.num st.expend) none
    else h
  let h := hdrUpdate h "ASN_MTYP" (HVal.str "PROD-DTH") none
  let h := if hdrHasKey h "DRIZCORR" then
      hdrUpdate h "DRIZCORR" (HVal.str "COMPLETE") none
    else h
  let h := if hdrHasKey h "DITHCORR" then
      hdrUpdate h "DITHCORR" (HVal.str "COMPLETE") none
    else h
  hdrUpdate h "NDRIZIM" (HVal.num st.parlist.length)
    (some "Drizzle, No. images drizzled onto output")

/-- Primary-header population continued: `if not self.blot:
self.addDrizKeywords(prihdu.header, versions)` (`outputimage.py`
lines 269-270). -/
def populatePrimary (st : OutputImageState) (prihdr : Header) (nextend : Nat)
    (versions : Option (List (String × String))) : Header :=
  let h := primaryBase st prihdr nextend
  if !st.blot then addDrizKeywords st h versions else h

/-- Science-header fixups of `writeFITS` (`outputimage.py` lines 272-294):
delete `MDRIZSKY`/`OBJECT` (unguarded, so a missing keyword raises),
normalise `CCDCHIP`, update `NCOMBINE`, resolve `BUNIT`, and sync the output
WCS into the science header. -/
def fixupSci (st : OutputImageState) (distKeys : List String)
    (scihdr : Option Header) : Except WErr (Option Header) :=
  if optHdrTruthy scihdr then do
    let s := scihdr.getD []
    let s ← match hdrDel s "MDRIZSKY" with
      | none => throw (WErr.keyError "MDRIZSKY")
      | some s => pure s
    let s ← match hdrDel s "OBJECT" with
      | none => throw (WErr.keyError "OBJECT")
      | some s => pure s
    let s := if hdrHasKey s "CCDCHIP" then
        hdrUpdate s "CCDCHIP" (HVal.str "-999") none
      else s
    let s := if hdrHasKey s "NCOMBINE" then
        hdrUpdate s "NCOMBINE" (HVal.num ((st.parlist.getD 0 default).nimages)) none
      else s
    let s ← match st.bunit with
      | some b =>
          let cstr := if b.toLower.take 5 = "count" then "counts * gain = electrons"
            else "Units of science product"
          pure (hdrUpdate s "BUNIT" (HVal.str b) (some cstr))
      | none =>
          -- `scihdr.has_key('bunit') and scihdr['bunit'].lower()[:5] == 'count'`
          if hdrHasKey s "BUNIT" then
            match hdrFind s "BUNIT" with
            | some (HVal.str bv) =>
                if bv.toLower.take 5 = "count" then
                  pure (hdrUpdate s "BUNIT" (HVal.str bv)
                    (some "counts * gain = electrons"))
                else pure s
            | some _ => throw WErr.typeError   -- `.lower()` on a non-string value
            | none => pure s
          else pure s
    let s := match st.wcs with
      | some w => addWCSKeywords w s st.blot distKeys
      | none => s
    Except.ok (some s)
  else
    Except.ok scihdr

/-- A data array as far as the assembler inspects it: its shape
(`ctxarr.shape[0]` drives the context squeeze; array contents are opaque). -/
structure NDArr where
  shape : List Nat
deriving DecidableEq, Repr, Inhabited

/-- One HDU of an emitted product: optional extension name, header, and the
shape of the attached data (if any). -/
structure HDU where
  ename : Option String
  hdr : Header
  dataShape : Option (List Nat)
deriving DecidableEq, Repr, Inhabited

/-- One emitted FITS file: target path, HDU list, and whether the
combined-metadata table extension was appended. -/
structure OutFile where
  path : String
  hdus : List HDU
  hasTab : Bool
deriving DecidableEq, Repr, Inhabited

/-- The card-propagation loop of the split-file branch: append each card of
the template header whose key is neither reserved nor already present
(`outputimage.py` lines 366-369 and analogues). -/
def appendUnique (dst : Header) (src : Header) : Header :=
  src.foldl (fun h c =>
    if !(RESERVED_KEYS.contains c.key) && !(hdrHasKey h c.key) then h ++ [c] else h) dst

/-- The `build == True` emission branch of `writeFITS` (`outputimage.py`
lines 299-352): one file with primary + SCI/WHT/CTX extensions (context
squeezed to 2-D when it has a single plane) and the optional table. -/
def buildProduct (st : OutputImageState) (distKeys : List String)
    (prihdr : Header) (scihdr errhdr dqhdr : Option Header) (hasTab : Bool)
    (sciarr : NDArr) (whtarr ctxarr : Option NDArr) : Except WErr OutFile := do
  -- SCI extension
  let sh := scihdr.getD []
  let sh := hdrUpdate sh "EXTNAME" (HVal.str "SCI") none
  let sh := hdrUpdate sh "EXTVER" (HVal.num 1) none
  -- WHT extension (`if errhdr: errhdr.update('CCDCHIP','-999')`)
  let errhdr := if optHdrTruthy errhdr then
      some (hdrUpdate (errhdr.getD []) "CCDCHIP" (HVal.str "-999") none)
    else errhdr
  let wh := errhdr.getD []
  let wh := hdrUpdate wh "EXTVER" (HVal.num 1) none
  let wh := hdrUpdate wh "EXTNAME" (HVal.str "WHT") none
  let wh := match st.wcs with
    | some w => addWCSKeywords w wh st.blot distKeys
    | none => wh
  -- CTX squeeze (`ctxarr.shape[0]` raises on a missing context array)
  let ctxData ← if optStrTruthy st.outcontext then
      match ctxarr with
      | none => throw WErr.typeError
      | some a => pure (some (if a.shape.headD 0 = 1 then NDArr.mk a.shape.tail else a))
    else pure none
  let dh := dqhdr.getD []
  let dh := hdrUpdate dh "EXTVER" (HVal.num 1) none
  let dh := hdrUpdate dh "EXTNAME" (HVal.str "CTX") none
  let dh := match st.wcs with
    | some w => addWCSKeywords w dh st.blot distKeys
    | none => dh
  Except.ok
    { path := st.output,
      hdus := [ ⟨none, prihdr, none⟩,
                ⟨some "SCI", sh, some sciarr.shape⟩,
                ⟨some "WHT", wh, Option.map NDArr.shape whtarr⟩,
                ⟨some "CTX", dh, Option.map NDArr.shape ctxData⟩ ],
      hasTab := hasTab }

/-- The `build == False` emission branch of `writeFITS` (`outputimage.py`
lines 354-441): up to three simple FITS files, each starting from the
populated primary header (pyfits header-object aliasing between the three
files is not modelled), inheriting unique template keywords, stamped with its
own filename and WCS sync. -/
def splitProduct (st : OutputImageState) (distKeys : List String)
    (prihdr : Header) (scihdr errhdr dqhdr : Option Header) (hasTab : Bool)
    (sciarr : NDArr) (whtarr ctxarr : Option NDArr) (fs : FS) :
    Except WErr (FS × List OutFile) := do
  -- science file
  let h := hdrUpdate prihdr "EXTEND" (HVal.bool false) none
  let h := if optHdrTruthy scihdr then appendUnique h (scihdr.getD []) else h
  let h ← match hdrDel h "PCOUNT" with
    | none => throw (WErr.keyError "PCOUNT")
    | some h => pure h
  let h ← match hdrDel h "GCOUNT" with
    | none => throw (WErr.keyError "GCOUNT")
    | some h => pure h
  let h := hdrUpdate h "FILENAME" (HVal.str st.outdata) none
  let h := match st.wcs with
    | some w => addWCSKeywords w h st.blot distKeys
    | none => h
  let sciFile : OutFile :=
    { path := st.outdata, hdus := [⟨none, h, some sciarr.shape⟩], hasTab := hasTab }
  let fs := FS.add fs st.outdata
  let files := [sciFile]
  -- weight file (`if self.outweight and whtarr != None:`)
  let (fs, files) ← if strTruthy st.outweight && whtarr.isSome then do
      let errhdr := if optHdrTruthy errhdr then
          some (hdrUpdate (errhdr.getD []) "CCDCHIP" (HVal.str "-999") none)
        else errhdr
      let wh := prihdr
      let wh := if optHdrTruthy errhdr then appendUnique wh (errhdr.getD []) else wh
      let wh := hdrUpdate wh "FILENAME" (HVal.str st.outweight) none
      let wh := hdrUpdate wh "CCDCHIP" (HVal.str "-999") none
      let wh := match st.wcs with
        | some w => addWCSKeywords w wh st.blot distKeys
        | none => wh
      pure (FS.add fs st.outweight,
        files ++ [OutFile.mk st.outweight [⟨none, wh, Option.map NDArr.shape whtarr⟩] false])
    else pure (fs, files)
  -- context file (`if self.outcontext and ctxarr != None:`)
  if optStrTruthy st.outcontext && ctxarr.isSome then do
    let a := ctxarr.getD default
    let ctxd := if a.shape.headD 0 = 1 then NDArr.mk a.shape.tail else a
    let ch := prihdr
    let ch := if optHdrTruthy dqhdr then appendUnique ch (dqhdr.getD []) else ch
    let ch := hdrUpdate ch "FILENAME" (HVal.str (st.outcontext.getD "")) none
    let ch := match st.wcs with
      | some w => addWCSKeywords w ch st.blot distKeys
      | none => ch
    Except.ok (FS.add fs (st.outcontext.getD ""),
      files ++ [OutFile.mk (st.outcontext.getD "") [⟨none, ch, some ctxd.shape⟩] false])
  else
    Except.ok (fs, files)

/-- `OutputImage.writeFITS(template, sciarr, whtarr, ctxarr, versions,
overwrite, blend)` (`outputimage.py` lines 155-441).  The external
`fitsblender` template provider is a parameter mapping the effective blend
flag to its result; `getTemplates` is that call followed by `cleanTemplates`. -/
def writeFITS (st : OutputImageState) (distKeys : List String)
    (provider : Bool → RawTemplates) (fs : FS)
    (sciarr : NDArr) (whtarr ctxarr : Option NDArr)
    (versions : Option (List (String × String)))
    (overwrite blend : Bool) : Except WErr (FS × List OutFile) := do
  let (fs, nextend0) ← collisionPhase st overwrite fs
  -- `if self.single: blend = False`
  let blendEff := if st.single then false else blend
  let raw := provider blendEff
  let (scihdr, errhdr, dqhdr) ← cleanTemplates raw.scihdr raw.errhdr raw.dqhdr
  -- `if newtab is not None: nextend += 1`
  let nextend := if raw.hasTab then nextend0 + 1 else nextend0
  let prihdr := populatePrimary st raw.prihdr nextend versions
  let scihdr ← fixupSci st distKeys scihdr
  if st.build then do
    let f ← buildProduct st distKeys prihdr scihdr errhdr dqhdr raw.hasTab sciarr whtarr ctxarr
    Except.ok (FS.add fs st.output, [f])
  else
    splitProduct st distKeys prihdr scihdr errhdr dqhdr raw.hasTab sciarr whtarr ctxarr fs

/-!
The pixel mapper (`lib/drizzlepac/calc_pixmap.py`).

A WCS model exposes its pixel-grid extent, whether it carries a SIP
distortion polynomial (`wcs.sip is None`), the full forward transform
`all_pix2world`, the linear-only inverse `wcs_world2pix` and the full inverse
`all_world2pix`, all on 1-based coordinates.  Coordinates are exact rationals
in place of IEEE doubles, so the "within floating-point tolerance" statements
of the spec become exact equalities.
-/

structure WCSModel where
  naxis1 : Nat
  naxis2 : Nat
  hasSip : Bool
  all_pix2world : ℚ × ℚ → ℚ × ℚ
  wcs_world2pix : ℚ × ℚ → ℚ × ℚ
  all_world2pix : ℚ × ℚ → ℚ × ℚ

/-- The transposed, one-shifted index grid
(`np.indices((n1, n2)).transpose() + 1`): row `j` holds the 1-based points
`(i+1, j+1)` for `i < n1`. -/
def gridRows (n1 n2 : Nat) : List (List (ℚ × ℚ)) :=
  (List.range n2).map (fun (j : Nat) =>
    (List.range n1).map (fun (i : Nat) => ((i : ℚ) + 1, (j : ℚ) + 1)))

/-- Row-major reshape of a flat list of points to `(n2, n1, 2)`
(`pixmap.reshape(first_naxis2, first_naxis1, 2)`). -/
def reshapeRows (l : List (ℚ × ℚ)) (n2 n1 : Nat) : List (List (ℚ × ℚ)) :=
  (List.range n2).map (fun j => (List.range n1).map (fun i => l.getD (j * n1 + i) (0, 0)))

/-- `calc_pixmap(first_wcs, second_wcs)` (`calc_pixmap.py` lines 3-33):
build the 1-based grid of the first model's extent, flatten it row-major
(`reshape(n2*n1, 2)`), push every point through `first.all_pix2world`, then
through the second model's linear inverse when it has no SIP polynomial and
its full inverse otherwise, reshape to `(n2, n1, 2)` and shift back to
0-based coordinates. -/
def calc_pixmap (first second : WCSModel) : List (List (ℚ × ℚ)) :=
  let n1 := first.naxis1
  let n2 := first.naxis2
  let idxmap := (gridRows n1 n2).flatten
  let worldmap := idxmap.map first.all_pix2world
  let pixflat := if second.hasSip = false then worldmap.map second.wcs_world2pix
    else worldmap.map second.all_world2pix
  let pixmap := reshapeRows pixflat n2 n1
  pixmap.map (fun row => row.map (fun p => (p.1 - 1, p.2 - 1)))

-- Index characterisation of the flatten/reshape pipeline.

theorem flatten_getElem_grid {α : Type} {n1 : Nat} :
    ∀ (L : List (List α)) (y x : Nat), (∀ r ∈ L, r.length = n1) →
      y < L.length → x < n1 →
      L.flatten[y * n1 + x]? = L[y]?.bind (fun r => r[x]?) := by
  intro L
  induction L with
  | nil => intro y x _ hy _; exact absurd hy (by simp)
  | cons r rest ih =>
      intro y x hlen hy hx
      have hr : r.length = n1 := hlen r (by simp)
      cases y with
      | zero =>
          have hlt : 0 * n1 + x < r.length := by omega
          simp only [List.flatten_cons]
          rw [List.getElem?_append_left hlt]
          simp
      | succ y =>
          have hge : r.length ≤ (y + 1) * n1 + x := by
            rw [hr]; nlinarith [Nat.zero_le (y * n1)]
          simp only [List.flatten_cons]
          rw [List.getElem?_append_right hge]
          have harith : (y + 1) * n1 + x - r.length = y * n1 + x := by
            rw [hr]; ring_nf; omega
          rw [harith]
          have hy' : y < rest.length := by simpa using Nat.lt_of_succ_lt_succ hy
          rw [ih y x (fun s hs => hlen s (by simp [hs])) hy' hx]
          simp

theorem gridRows_length (n1 n2 : Nat) : (gridRows n1 n2).length = n2 := by
  unfold gridRows
  rw [List.length_map, List.length_range]

theorem gridRows_row_length (n1 n2 : Nat) : ∀ r ∈ gridRows n1 n2, r.length = n1 := by
  unfold gridRows
  intro r hr
  rw [List.mem_map] at hr
  obtain ⟨j, _, rfl⟩ := hr
  rw [List.length_map, List.length_range]

theorem gridRows_flatten_entry (n1 n2 y x : Nat) (hy : y < n2) (hx : x < n1) :
    (gridRows n1 n2).flatten[y * n1 + x]? = some ((x : ℚ) + 1, (y : ℚ) + 1) := by
  have hy' : y < (gridRows n1 n2).length := by rw [gridRows_length]; exact hy
  rw [flatten_getElem_grid (gridRows n1 n2) y x (gridRows_row_length n1 n2) hy' hx]
  unfold gridRows
  rw [List.getElem?_map, List.getElem?_range hy]
  simp only [Option.map_some', Option.some_bind]
  rw [List.getElem?_map, List.getElem?_range hx]
  rfl

theorem reshape_map_entry (l : List (ℚ × ℚ)) (n2 n1 y x : Nat) (v : ℚ × ℚ)
    (hy : y < n2) (hx : x < n1) (hl : l[y * n1 + x]? = some v) :
    (((reshapeRows l n2 n1).map
        (fun row => row.map (fun p : ℚ × ℚ => (p.1 - 1, p.2 - 1)))).getD y []).getD x (0, 0)
      = (v.1 - 1, v.2 - 1) := by
  have hrow : (reshapeRows l n2 n1)[y]? =
      some ((List.range n1).map (fun i => l.getD (y * n1 + i) (0, 0))) := by
    unfold reshapeRows
    rw [List.getElem?_map, List.getElem?_range hy]
    rfl
  rw [List.getD_eq_getElem?_getD, List.getD_eq_getElem?_getD, List.getElem?_map, hrow]
  simp only [Option.map_some', Option.getD_some]
  rw [List.getElem?_map, List.getElem?_map, List.getElem?_range hx]
  simp only [Option.map_some', Option.getD_some, List.getD_eq_getElem?_getD, hl]

/-- Entry characterisation of `calc_pixmap`: pixel `(x, y)` of the first
model's grid maps through the +1 shift, the first model's full forward
transform, the second model's SIP-dependent inverse, and the -1 shift. -/
theorem calc_pixmap_entry (first second : WCSModel) (y x : Nat)
    (hy : y < first.naxis2) (hx : x < first.naxis1) :
    ((calc_pixmap first second).getD y []).getD x (0, 0) =
      (fun q : ℚ × ℚ => (q.1 - 1, q.2 - 1))
        ((if second.hasSip then second.all_world2pix else second.wcs_world2pix)
          (first.all_pix2world ((x : ℚ) + 1, (y : ℚ) + 1))) := by
  have hflat := gridRows_flatten_entry first.naxis1 first.naxis2 y x hy hx
  have hworld :
      ((gridRows first.naxis1 first.naxis2).flatten.map
        first.all_pix2world)[y * first.naxis1 + x]?
        = some (first.all_pix2world ((x : ℚ) + 1, (y : ℚ) + 1)) := by
    rw [List.getElem?_map, hflat]
    rfl
  cases hs : second.hasSip with
  | false =>
      have hcp : calc_pixmap first second =
          (reshapeRows (((gridRows first.naxis1 first.naxis2).flatten.map
              first.all_pix2world).map second.wcs_world2pix)
            first.naxis2 first.naxis1).map
            (fun row => row.map (fun p : ℚ × ℚ => (p.1 - 1, p.2 - 1))) := by
        unfold calc_pixmap
        rw [hs]
        rfl
      have hl : (((gridRows first.naxis1 first.naxis2).flatten.map
          first.all_pix2world).map second.wcs_world2pix)[y * first.naxis1 + x]?
          = some (second.wcs_world2pix
              (first.all_pix2world ((x : ℚ) + 1, (y : ℚ) + 1))) := by
        rw [List.getElem?_map, hworld]
        rfl
      rw [hcp]
      exact reshape_map_entry _ first.naxis2 first.naxis1 y x _ hy hx hl
  | true =>
      have hcp : calc_pixmap first second =
          (reshapeRows (((gridRows first.naxis1 first.naxis2).flatten.map
              first.all_pix2world).map second.all_world2pix)
            first.naxis2 first.naxis1).map
            (fun row => row.map (fun p : ℚ × ℚ => (p.1 - 1, p.2 - 1))) := by
        unfold calc_pixmap
        rw [hs]
        rfl
      have hl : (((gridRows first.naxis1 first.naxis2).flatten.map
          first.all_pix2world).map second.all_world2pix)[y * first.naxis1 + x]?
          = some (second.all_world2pix
              (first.all_pix2world ((x : ℚ) + 1, (y : ℚ) + 1))) := by
        rw [List.getElem?_map, hworld]
        rfl
      rw [hcp]
      exact reshape_map_entry _ first.naxis2 first.naxis1 y x _ hy hx hl

theorem calc_pixmap_eq (first second : WCSModel) :
    calc_pixmap first second =
      (reshapeRows (((gridRows first.naxis1 first.naxis2).flatten.map
          first.all_pix2world).map
          (if second.hasSip then second.all_world2pix else second.wcs_world2pix))
        first.naxis2 first.naxis1).map
        (fun row => row.map (fun p : ℚ × ℚ => (p.1 - 1, p.2 - 1))) := by
  cases hs : second.hasSip
  · unfold calc_pixmap
    rw [hs]
    rfl
  · unfold calc_pixmap
    rw [hs]
    rfl

theorem reshape_map_shape (l : List (ℚ × ℚ)) (n2 n1 : Nat) :
    ((reshapeRows l n2 n1).map
        (fun row => row.map (fun p : ℚ × ℚ => (p.1 - 1, p.2 - 1)))).length = n2 ∧
    ∀ row ∈ (reshapeRows l n2 n1).map
        (fun row => row.map (fun p : ℚ × ℚ => (p.1 - 1, p.2 - 1))),
      row.length = n1 := by
  constructor
  · unfold reshapeRows
    rw [List.length_map, List.length_map, List.length_range]
  · intro row hrow
    rw [List.mem_map] at hrow
    obtain ⟨r, hr, rfl⟩ := hrow
    unfold reshapeRows at hr
    rw [List.mem_map] at hr
    obtain ⟨j, _, rfl⟩ := hr
    rw [List.length_map, List.length_map, List.length_range]

/-- C6: for every pair of WCS models (source extent at least 1 in each axis),
`calc_pixmap` builds the full integer pixel grid of the source extent, shifts
it by +1 to 1-based coordinates, applies the source model's full forward
transform, then the target's full inverse when the target has a distortion
polynomial and its linear-only inverse otherwise, shifts by -1, and returns
an array of shape (height, width, 2). -/
theorem C6_pixmap_algorithm (first second : WCSModel)
    (h1 : 1 ≤ first.naxis1) (h2 : 1 ≤ first.naxis2) :
    (calc_pixmap first second).length = first.naxis2 ∧
    (∀ row ∈ calc_pixmap first second, row.length = first.naxis1) ∧
    ∀ y x : Nat, y < first.naxis2 → x < first.naxis1 →
      ((calc_pixmap first second).getD y []).getD x (0, 0) =
        (fun q : ℚ × ℚ => (q.1 - 1, q.2 - 1))
          ((if second.hasSip then second.all_world2pix else second.wcs_world2pix)
            (first.all_pix2world ((x : ℚ) + 1, (y : ℚ) + 1))) := by
  refine ⟨?_, ?_, ?_⟩
  · rw [calc_pixmap_eq]
    exact (reshape_map_shape _ _ _).1
  · rw [calc_pixmap_eq]
    exact (reshape_map_shape _ _ _).2
  · intro y x hy hx
    exact calc_pixmap_entry first second y x hy hx

/-- A concrete SIP-bearing model exercising a non-trivial forward transform
and full inverse for the C6 witness. -/
def pixmapModelC6 : WCSModel :=
  { naxis1 := 3, naxis2 := 2, hasSip := true,
    all_pix2world := fun p => (2 * p.1, p.2 + 5),
    wcs_world2pix := fun p => (p.1, p.2),
    all_world2pix := fun p => (p.1 / 2, p.2 - 5) }

theorem C6_pixmap_algorithm_witness :
    (1 ≤ pixmapModelC6.naxis1 ∧ 1 ≤ pixmapModelC6.naxis2) ∧
    ((calc_pixmap pixmapModelC6 pixmapModelC6).length = pixmapModelC6.naxis2 ∧
    (∀ row ∈ calc_pixmap pixmapModelC6 pixmapModelC6, row.length = pixmapModelC6.naxis1) ∧
    ∀ y x : Nat, y < pixmapModelC6.naxis2 → x < pixmapModelC6.naxis1 →
      ((calc_pixmap pixmapModelC6 pixmapModelC6).getD y []).getD x (0, 0) =
        (fun q : ℚ × ℚ => (q.1 - 1, q.2 - 1))
          ((if pixmapModelC6.hasSip then pixmapModelC6.all_world2pix
            else pixmapModelC6.wcs_world2pix)
            (pixmapModelC6.all_pix2world ((x : ℚ) + 1, (y : ℚ) + 1)))) :=
  ⟨⟨by decide, by decide⟩,
   C6_pixmap_algorithm pixmapModelC6 pixmapModelC6 (by decide) (by decide)⟩

/-- C5: for any WCS model with positive extent whose applicable inverse
transform inverts its own forward transform, mapping the model onto itself
yields the identity grid (exact equality in the rational-arithmetic model,
standing for the spec's floating-point tolerance). -/
theorem C5_pixmap_identity (W : WCSModel) (h1 : 1 ≤ W.naxis1) (h2 : 1 ≤ W.naxis2)
    (hinv : ∀ p : ℚ × ℚ,
      (if W.hasSip then W.all_world2pix else W.wcs_world2pix) (W.all_pix2world p) = p) :
    ∀ y x : Nat, y < W.naxis2 → x < W.naxis1 →
      ((calc_pixmap W W).getD y []).getD x (0, 0) = ((x : ℚ), (y : ℚ)) := by
  intro y x hy hx
  rw [calc_pixmap_entry W W y x hy hx, hinv]
  simp

/-- A concrete distortion-free model for the C5 witness. -/
def pixmapModelC5 : WCSModel :=
  { naxis1 := 2, naxis2 := 2, hasSip := false,
    all_pix2world := fun p => (p.1 + 7, p.2 - 3),
    wcs_world2pix := fun p => (p.1 - 7, p.2 + 3),
    all_world2pix := fun p => (p.1, p.2) }

theorem C5_pixmap_identity_witness :
    (1 ≤ pixmapModelC5.naxis1 ∧ 1 ≤ pixmapModelC5.naxis2 ∧
      ∀ p : ℚ × ℚ,
        (if pixmapModelC5.hasSip then pixmapModelC5.all_world2pix
          else pixmapModelC5.wcs_world2pix) (pixmapModelC5.all_pix2world p) = p) ∧
    ∀ y x : Nat, y < pixmapModelC5.naxis2 → x < pixmapModelC5.naxis1 →
      ((calc_pixmap pixmapModelC5 pixmapModelC5).getD y []).getD x (0, 0)
        = ((x : ℚ), (y : ℚ)) :=
  ⟨⟨by decide, by decide, fun p => by simp [pixmapModelC5]⟩,
   C5_pixmap_identity pixmapModelC5 (by decide) (by decide)
     (fun p => by simp [pixmapModelC5])⟩

-- Frame lemmas: provenance-keyword writes only touch D-prefixed keywords and
-- HISTORY cards, so they leave other primary-header keywords alone.

theorem dkey_ne (s t : String) {k : String} (hk : k.data.head? ≠ some 'D') :
    k ≠ ("D" ++ s) ++ t := by
  intro he
  apply hk
  rw [he]
  show ((("D" ++ s) ++ t).data).head? = some 'D'
  have h1 : (("D" ++ s) ++ t).data = ("D".data ++ s.data) ++ t.data := rfl
  rw [h1]
  rfl

theorem hdrFind_writeDriz_frame (hdr : Header) (imgnum : Nat)
    (dict : List (String × HVal × String)) {k : String}
    (hk : k.data.head? ≠ some 'D') :
    hdrFind (writeDrizKeywords hdr imgnum dict) k = hdrFind hdr k := by
  unfold writeDrizKeywords
  induction dict generalizing hdr with
  | nil => rfl
  | cons e rest ih =>
      rw [List.foldl_cons, ih]
      exact hdrFind_update_ne hdr _ _ (dkey_ne (fmt03 imgnum) e.1 hk)

theorem hdrFind_addDrizChips_frame (single : Bool) (units : String)
    (plist : List ChipRecord) {k : String} (hk : k.data.head? ≠ some 'D') :
    ∀ (hdr : Header) (imgnum : Nat),
      hdrFind (addDrizChips single units hdr imgnum plist) k = hdrFind hdr k := by
  induction plist with
  | nil => intro hdr imgnum; rfl
  | cons pl rest ih =>
      intro hdr imgnum
      simp only [addDrizChips]
      rw [ih, hdrFind_writeDriz_frame _ _ _ hk]

theorem hdrFind_foldl_history (vs : List (String × String)) {k : String}
    (hk : k ≠ "HISTORY") :
    ∀ h : Header,
      hdrFind (vs.foldl (fun h kv =>
        hdrAddHistory h ("    " ++ kv.1 ++ " Version " ++ kv.2)) h) k = hdrFind h k := by
  induction vs with
  | nil => intro h; rfl
  | cons kv rest ih =>
      intro h
      rw [List.foldl_cons, ih, hdrFind_addHistory _ _ hk]

theorem hdrFind_addVersionHistory_frame (h : Header)
    (versions : Option (List (String × String))) {k : String} (hk : k ≠ "HISTORY") :
    hdrFind (addVersionHistory h versions) k = hdrFind h k := by
  cases versions with
  | none => rfl
  | some vs =>
      unfold addVersionHistory
      rw [hdrFind_foldl_history vs hk, hdrFind_addHistory _ _ hk]

theorem hdrFind_addDrizKeywords_frame (st : OutputImageState) (hdr : Header)
    (versions : Option (List (String × String))) {k : String}
    (hkD : k.data.head? ≠ some 'D') (hkH : k ≠ "HISTORY") :
    hdrFind (addDrizKeywords st hdr versions) k = hdrFind hdr k := by
  unfold addDrizKeywords
  rw [hdrFind_addVersionHistory_frame _ _ hkH, hdrFind_addDrizChips_frame _ _ _ hkD]

theorem hdrFind_condUpdate_ne (c : Prop) [Decidable c] (h : Header) {k key : String}
    (v : HVal) (cm : Option String) (hne : k ≠ key) :
    hdrFind (if c then hdrUpdate h key v cm else h) k = hdrFind h k := by
  by_cases hc : c <;> simp [hc, hdrFind_update_ne h v cm hne]

/-- The exposure-time stamping of the primary header happens whenever the
resolved `texptime` is truthy, independent of the blot flag. -/
theorem primaryBase_exptime (st : OutputImageState) (prihdr : Header)
    (nextend : Nat) (ht : st.texptime ≠ 0) :
    hdrFind (primaryBase st prihdr nextend) "EXPTIME" = some (HVal.num st.texptime) := by
  have htq : qTruthy st.texptime = true := by simp [qTruthy, ht]
  simp [primaryBase, htq, hdrFind_update_ne, hdrFind_update_self, hdrFind_condUpdate_ne]

theorem populatePrimary_exptime (st : OutputImageState) (prihdr : Header)
    (nextend : Nat) (versions : Option (List (String × String)))
    (ht : st.texptime ≠ 0) :
    hdrFind (populatePrimary st prihdr nextend versions) "EXPTIME"
      = some (HVal.num st.texptime) := by
  unfold populatePrimary
  cases hb : st.blot with
  | false =>
      rw [show (!false) = true from rfl, if_pos rfl]
      rw [hdrFind_addDrizKeywords_frame st _ versions (by decide) (by decide)]
      exact primaryBase_exptime st prihdr nextend ht
  | true =>
      rw [show (!true) = false from rfl, if_neg (by simp)]
      exact primaryBase_exptime st prihdr nextend ht

/-- A representative merged chip record used by the concrete evaluations. -/
def baseChip : ChipRecord :=
  { output := "final_drz.fits", outnx := 10, outny := 8,
    blotImage := "final_blt.fits", blotnx := 10, blotny := 8,
    outSingle := "single_sci.fits", outSWeight := "single_wht.fits",
    outSContext := some "single_ctx.fits",
    outFinal := "final_drz.fits", outSci := "final_drz_sci.fits",
    outWeight := "final_drz_wht.fits", outContext := some "final_drz_ctx.fits",
    texptime := 100, texpstart := 0, texpend := 100, nimages := 1,
    data := "j8c0d1011_flt.fits", driz_version := "1.0", exptime := 100,
    singleDrizMask := "mask_single.fits", finalMask := "mask_final.fits",
    wt_scl := "exptime", kernel := "square", pixfrac := 1, fillval := none,
    driz_wcskey := "A", scale := 1/20, idcscale := 1/20 }

/-- A template bundle whose science header carries the keywords `writeFITS`
deletes unguardedly, and no error/dq headers. -/
def tmplBasic : Bool → RawTemplates := fun _ =>
  { prihdr := [⟨"SIMPLE", HVal.bool true, ""⟩],
    scihdr := some [⟨"MDRIZSKY", HVal.num 3, ""⟩, ⟨"OBJECT", HVal.str "M31", ""⟩],
    errhdr := none, dqhdr := none, hasTab := false }

/-- C1 counterexample: a back-projection (`blot = true`) emission stamps the
exposure-time window into the primary header (EXPTIME = the resolved
texptime), contradicting the claim's "no exposure-time stamping occurs"
for the blot row. -/
theorem C1_blot_exptime_counterexample :
    (writeFITS (OutputImage_init [baseChip] true false true none) [] tmplBasic ⟨[]⟩
        ⟨[8, 10]⟩ (some ⟨[8, 10]⟩) (some ⟨[1, 8, 10]⟩) none true true).map
      (fun r => hdrFind ((r.2.headD default).hdus.headD default).hdr "EXPTIME")
      = Except.ok (some (HVal.num 100)) := by
  rfl

/-- C1 (amended): the mode-selection table of `OutputImage.__init__` holds as
claimed for the output paths - `backProjection` overrides the data-file
target, single-exposure mode selects the `outSingle`/`outSWeight`/`outSContext`
paths, otherwise `outFinal` (combined) or `outSci` plus separate
weight/context paths (split) - and the exposure-time window depends only on
`singleExposure` (texptime/expstart from record 0, expend from record 0 when
single else the last record).  Blot products are NOT exempt from stamping:
whenever the resolved texptime is non-zero, the emitted primary header
carries it, for every flag combination. -/
theorem C1_mode_table (plist : List ChipRecord) (hne : plist ≠ [])
    (build single blot : Bool) (wcs : Option WCSInfo) :
    (blot = true →
      (OutputImage_init plist build single blot wcs).outdata
        = (plist.getD 0 default).blotImage) ∧
    (blot = false → single = false → build = true →
      (OutputImage_init plist build single blot wcs).outdata
        = (plist.getD 0 default).outFinal) ∧
    (blot = false → single = false → build = false →
      (OutputImage_init plist build single blot wcs).outdata
          = (plist.getD 0 default).outSci ∧
        (OutputImage_init plist build single blot wcs).outweight
          = (plist.getD 0 default).outWeight ∧
        (OutputImage_init plist build single blot wcs).outcontext
          = (plist.getD 0 default).outContext) ∧
    (blot = false → single = true →
      (OutputImage_init plist build single blot wcs).outdata
          = (plist.getD 0 default).outSingle ∧
        (OutputImage_init plist build single blot wcs).outweight
          = (plist.getD 0 default).outSWeight ∧
        (OutputImage_init plist build single blot wcs).outcontext
          = (plist.getD 0 default).outSContext) ∧
    (OutputImage_init plist build single blot wcs).texptime
      = (plist.getD 0 default).texptime ∧
    (OutputImage_init plist build single blot wcs).expstart
      = (plist.getD 0 default).texpstart ∧
    (OutputImage_init plist build single blot wcs).expend
      = (if single then (plist.getD 0 default).texpend
         else (plist.getD (plist.length - 1) default).texpend) ∧
    ∀ (prihdr : Header) (nextend : Nat) (versions : Option (List (String × String))),
      (OutputImage_init plist build single blot wcs).texptime ≠ 0 →
        hdrFind (populatePrimary (OutputImage_init plist build single blot wcs)
            prihdr nextend versions) "EXPTIME"
          = some (HVal.num (OutputImage_init plist build single blot wcs).texptime) := by
  refine ⟨?_, ?_, ?_, ?_, ?_, ?_, ?_, ?_⟩
  · intro hb; subst hb; simp [OutputImage_init]
  · intro hb hs hbd; subst hb; subst hs; subst hbd; simp [OutputImage_init]
  · intro hb hs hbd; subst hb; subst hs; subst hbd; simp [OutputImage_init]
  · intro hb hs; subst hb; subst hs; simp [OutputImage_init]
  · simp [OutputImage_init]
  · simp [OutputImage_init]
  · simp [OutputImage_init]
  · intro prihdr nextend versions ht
    exact populatePrimary_exptime _ prihdr nextend versions ht

theorem C1_mode_table_witness :
    ([baseChip] ≠ ([] : List ChipRecord)) ∧
    ((true = true →
      (OutputImage_init [baseChip] true false true none).outdata
        = ([baseChip].getD 0 default).blotImage) ∧
    (true = false → false = false → true = true →
      (OutputImage_init [baseChip] true false true none).outdata
        = ([baseChip].getD 0 default).outFinal) ∧
    (true = false → false = false → true = false →
      (OutputImage_init [baseChip] true false true none).outdata
          = ([baseChip].getD 0 default).outSci ∧
        (OutputImage_init [baseChip] true false true none).outweight
          = ([baseChip].getD 0 default).outWeight ∧
        (OutputImage_init [baseChip] true false true none).outcontext
          = ([baseChip].getD 0 default).outContext) ∧
    (true = false → false = true →
      (OutputImage_init [baseChip] true false true none).outdata
          = ([baseChip].getD 0 default).outSingle ∧
        (OutputImage_init [baseChip] true false true none).outweight
          = ([baseChip].getD 0 default).outSWeight ∧
        (OutputImage_init [baseChip] true false true none).outcontext
          = ([baseChip].getD 0 default).outSContext) ∧
    (OutputImage_init [baseChip] true false true none).texptime
      = ([baseChip].getD 0 default).texptime ∧
    (OutputImage_init [baseChip] true false true none).expstart
      = ([baseChip].getD 0 default).texpstart ∧
    (OutputImage_init [baseChip] true false true none).expend
      = (if false then ([baseChip].getD 0 default).texpend
         else ([baseChip].getD ([baseChip].length - 1) default).texpend) ∧
    ∀ (prihdr : Header) (nextend : Nat) (versions : Option (List (String × String))),
      (OutputImage_init [baseChip] true false true none).texptime ≠ 0 →
        hdrFind (populatePrimary (OutputImage_init [baseChip] true false true none)
            prihdr nextend versions) "EXPTIME"
          = some (HVal.num (OutputImage_init [baseChip] true false true none).texptime)) :=
  ⟨by simp, C1_mode_table [baseChip] (by simp) true false true none⟩

/-- C2 failing evaluation: in split-file mode (`build = False`) with
`overwrite = False`, `writeFITS` raises `IOError` on a defined weight path
even though NO target file exists on disk (the filesystem is empty), because
the `findFile` check only guards the log message. -/
theorem C2_split_collision_eval :
    writeFITS (OutputImage_init [baseChip] false false false none) []
      tmplBasic ⟨[]⟩ ⟨[8, 10]⟩ none none none false true
      = Except.error WErr.ioError := by
  rfl

/-- Science template header lacking `BSCALE`, so the shared `try:` block of
`cleanTemplates` aborts on its very first delete. -/
def sciC3 : Header := [⟨"MDRIZSKY", HVal.num 3, ""⟩, ⟨"OBJECT", HVal.str "M31", ""⟩]

/-- Error template header still carrying `BSCALE`. -/
def errC3 : Header := [⟨"BSCALE", HVal.num 1, ""⟩]

/-- C3 failing evaluation: because all six `BSCALE`/`BZERO` deletes share one
`try:` block, the `KeyError` from the science header's missing `BSCALE`
silently aborts the remaining deletes, and the error header's `BSCALE`
survives `cleanTemplates` untouched. -/
theorem C3_partial_strip_eval :
    cleanTemplates (some sciC3) (some errC3) none
        = Except.ok (some sciC3, some errC3, none) ∧
      hdrHasKey errC3 "BSCALE" = true := ⟨rfl, rfl⟩

-- C4 machinery: what survives the shared try-block, and what the WCS
-- propagation loop guarantees.

theorem bscaleDeletes_find (sci err dq : Header) :
    ∃ s' e' d',
      bscaleDeletes (some sci) (some err) (some dq) = (some s', some e', some d') ∧
      ∀ k : String, k ≠ "BSCALE" → k ≠ "BZERO" →
        hdrFind s' k = hdrFind sci k ∧ hdrFind e' k = hdrFind err k ∧
        hdrFind d' k = hdrFind dq k := by
  unfold bscaleDeletes
  rcases h1 : hdrDel sci "BSCALE" with _ | s1
  · exact ⟨sci, err, dq, by simp [h1], fun k _ _ => ⟨rfl, rfl, rfl⟩⟩
  · rcases h2 : hdrDel s1 "BZERO" with _ | s2
    · exact ⟨s1, err, dq, by simp [h1, h2],
        fun k hk1 _ => ⟨hdrDel_some_find h1 hk1, rfl, rfl⟩⟩
    · rcases h3 : hdrDel err "BSCALE" with _ | e1
      · refine ⟨s2, err, dq, by simp [h1, h2, h3], fun k hk1 hk2 => ⟨?_, rfl, rfl⟩⟩
        rw [hdrDel_some_find h2 hk2, hdrDel_some_find h1 hk1]
      · rcases h4 : hdrDel e1 "BZERO" with _ | e2
        · refine ⟨s2, e1, dq, by simp [h1, h2, h3, h4],
            fun k hk1 hk2 => ⟨?_, hdrDel_some_find h3 hk1, rfl⟩⟩
          rw [hdrDel_some_find h2 hk2, hdrDel_some_find h1 hk1]
        · rcases h5 : hdrDel dq "BSCALE" with _ | d1
          · refine ⟨s2, e2, dq, by simp [h1, h2, h3, h4, h5],
              fun k hk1 hk2 => ⟨?_, ?_, rfl⟩⟩
            · rw [hdrDel_some_find h2 hk2, hdrDel_some_find h1 hk1]
            · rw [hdrDel_some_find h4 hk2, hdrDel_some_find h3 hk1]
          · rcases h6 : hdrDel d1 "BZERO" with _ | d2
            · refine ⟨s2, e2, d1, by simp [h1, h2, h3, h4, h5, h6],
                fun k hk1 hk2 => ⟨?_, ?_, hdrDel_some_find h5 hk1⟩⟩
              · rw [hdrDel_some_find h2 hk2, hdrDel_some_find h1 hk1]
              · rw [hdrDel_some_find h4 hk2, hdrDel_some_find h3 hk1]
            · refine ⟨s2, e2, d2, by simp [h1, h2, h3, h4, h5, h6],
                fun k hk1 hk2 => ⟨?_, ?_, ?_⟩⟩
              · rw [hdrDel_some_find h2 hk2, hdrDel_some_find h1 hk1]
              · rw [hdrDel_some_find h4 hk2, hdrDel_some_find h3 hk1]
              · rw [hdrDel_some_find h6 hk2, hdrDel_some_find h5 hk1]

theorem propagateWCS_cons (s err dq : Header) (k0 : String)
    (rest : List String) {v0 : HVal} (hv0 : hdrFind s k0 = some v0) :
    propagateWCS (some s) err dq (k0 :: rest) =
      propagateWCS (some s)
        (if hdrHasKey err k0 then err else hdrUpdate err k0 v0 none)
        (if hdrHasKey dq k0 then dq else hdrUpdate dq k0 v0 none) rest := by
  have hbind : ∀ (f : HVal → Except WErr (Header × Header)),
      (Except.ok v0 : Except WErr HVal) >>= f = f v0 := fun f => rfl
  by_cases h1 : hdrHasKey err k0 <;> by_cases h2 : hdrHasKey dq k0 <;>
    simp [propagateWCS, sciLookup, hv0, h1, h2, hbind]

theorem propagateWCS_ok (s : Header) (ks : List String) :
    ∀ (err dq : Header), ks.Nodup → (∀ k ∈ ks, (hdrFind s k).isSome = true) →
      ∃ e' d', propagateWCS (some s) err dq ks = Except.ok (e', d') ∧
        (∀ k, k ∉ ks → hdrFind e' k = hdrFind err k ∧ hdrFind d' k = hdrFind dq k) ∧
        (∀ k ∈ ks,
          (hdrHasKey err k = true → hdrFind e' k = hdrFind err k) ∧
          (hdrHasKey err k = false → hdrFind e' k = hdrFind s k) ∧
          (hdrHasKey dq k = true → hdrFind d' k = hdrFind dq k) ∧
          (hdrHasKey dq k = false → hdrFind d' k = hdrFind s k)) := by
  induction ks with
  | nil =>
      intro err dq _ _
      exact ⟨err, dq, rfl, fun k _ => ⟨rfl, rfl⟩,
        fun k hk => absurd hk (List.not_mem_nil k)⟩
  | cons k0 rest ih =>
      intro err dq hnd hsome
      have hk0some : (hdrFind s k0).isSome = true := hsome k0 (List.mem_cons_self k0 rest)
      obtain ⟨v0, hv0⟩ := Option.isSome_iff_exists.mp hk0some
      have hstep := propagateWCS_cons s err dq k0 rest hv0
      have hndr : rest.Nodup := (List.nodup_cons.mp hnd).2
      have hk0nr : k0 ∉ rest := (List.nodup_cons.mp hnd).1
      have hsomer : ∀ k ∈ rest, (hdrFind s k).isSome = true :=
        fun k hk => hsome k (List.mem_cons_of_mem k0 hk)
      obtain ⟨e', d', heq, hframe, hmem⟩ :=
        ih (if hdrHasKey err k0 then err else hdrUpdate err k0 v0 none)
          (if hdrHasKey dq k0 then dq else hdrUpdate dq k0 v0 none) hndr hsomer
      have herr1_ne : ∀ k, k ≠ k0 →
          hdrFind (if hdrHasKey err k0 then err else hdrUpdate err k0 v0 none) k
            = hdrFind err k := by
        intro k hkk
        by_cases hc : hdrHasKey err k0
        · rw [if_pos hc]
        · rw [if_neg hc]
          exact hdrFind_update_ne err _ _ hkk
      have hdq1_ne : ∀ k, k ≠ k0 →
          hdrFind (if hdrHasKey dq k0 then dq else hdrUpdate dq k0 v0 none) k
            = hdrFind dq k := by
        intro k hkk
        by_cases hc : hdrHasKey dq k0
        · rw [if_pos hc]
        · rw [if_neg hc]
          exact hdrFind_update_ne dq _ _ hkk
      refine ⟨e', d', ?_, ?_, ?_⟩
      · rw [hstep, heq]
      · intro k hk
        have hkne : k ≠ k0 := fun he => hk (he ▸ List.mem_cons_self k0 rest)
        have hknr : k ∉ rest := fun hr => hk (List.mem_cons_of_mem k0 hr)
        obtain ⟨hfe, hfd⟩ := hframe k hknr
        exact ⟨by rw [hfe, herr1_ne k hkne], by rw [hfd, hdq1_ne k hkne]⟩
      · intro k hk
        rcases List.mem_cons.mp hk with hke | hkr
        · subst hke
          obtain ⟨hfe, hfd⟩ := hframe k hk0nr
          refine ⟨?_, ?_, ?_, ?_⟩
          · intro hc
            rw [hfe, if_pos hc]
          · intro hc
            rw [hfe, if_neg (by simp [hc]), hdrFind_update_self, hv0]
          · intro hc
            rw [hfd, if_pos hc]
          · intro hc
            rw [hfd, if_neg (by simp [hc]), hdrFind_update_self, hv0]
        · have hkne : k ≠ k0 := fun he => hk0nr (he ▸ hkr)
          have hhke : hdrHasKey (if hdrHasKey err k0 then err
              else hdrUpdate err k0 v0 none) k = hdrHasKey err k :=
            congrArg Option.isSome (herr1_ne k hkne)
          have hhkd : hdrHasKey (if hdrHasKey dq k0 then dq
              else hdrUpdate dq k0 v0 none) k = hdrHasKey dq k :=
            congrArg Option.isSome (hdq1_ne k hkne)
          obtain ⟨m1, m2, m3, m4⟩ := hmem k hkr
          refine ⟨?_, ?_, ?_, ?_⟩
          · intro hc
            rw [m1 (by rw [hhke]; exact hc), herr1_ne k hkne]
          · intro hc
            exact m2 (by rw [hhke]; exact hc)
          · intro hc
            rw [m3 (by rw [hhkd]; exact hc), hdq1_ne k hkne]
          · intro hc
            exact m4 (by rw [hhkd]; exact hc)

/-- C4: after header cleanup, every keyword of the WCS positional set is
present in the error and data-quality headers, carrying the science header's
value wherever those headers lacked the keyword before cleanup (provided the
science header carries the full WCS set, as the source's unguarded
`scihdr[keyword]` lookup requires). -/
theorem C4_wcs_propagation (sci err dq : Header)
    (hsci : ∀ k ∈ WCS_KEYWORDS, (hdrFind sci k).isSome = true) :
    ∃ sci' err' dq',
      cleanTemplates (some sci) (some err) (some dq)
        = Except.ok (some sci', some err', some dq') ∧
      ∀ k ∈ WCS_KEYWORDS,
        hdrHasKey err' k = true ∧ hdrHasKey dq' k = true ∧
        (hdrHasKey err k = false → hdrFind err' k = hdrFind sci k) ∧
        (hdrHasKey dq k = false → hdrFind dq' k = hdrFind sci k) := by
  obtain ⟨s', e', d', heq, hpres⟩ := bscaleDeletes_find sci err dq
  have hks : ∀ k ∈ WCS_KEYWORDS, k ≠ "BSCALE" ∧ k ≠ "BZERO" := by decide
  have hsci' : ∀ k ∈ WCS_KEYWORDS, (hdrFind s' k).isSome = true := by
    intro k hk
    rw [(hpres k (hks k hk).1 (hks k hk).2).1]
    exact hsci k hk
  have hnd : WCS_KEYWORDS.Nodup := by decide
  obtain ⟨e'', d'', heq2, hframe, hmem⟩ := propagateWCS_ok s' WCS_KEYWORDS e' d' hnd hsci'
  refine ⟨s', e'', d'', ?_, ?_⟩
  · unfold cleanTemplates
    rw [heq]
    show propagateWCS (some s') e' d' WCS_KEYWORDS >>= _ = _
    rw [heq2]
    rfl
  · intro k hk
    have hkb := hks k hk
    have hps := (hpres k hkb.1 hkb.2).1
    have hpe := (hpres k hkb.1 hkb.2).2.1
    have hpd := (hpres k hkb.1 hkb.2).2.2
    obtain ⟨m1, m2, m3, m4⟩ := hmem k hk
    refine ⟨?_, ?_, ?_, ?_⟩
    · by_cases hc : hdrHasKey e' k
      · show (hdrFind e'' k).isSome = true
        rw [m1 hc]
        exact hc
      · show (hdrFind e'' k).isSome = true
        rw [m2 (by simpa using hc), hps]
        exact hsci k hk
    · by_cases hc : hdrHasKey d' k
      · show (hdrFind d'' k).isSome = true
        rw [m3 hc]
        exact hc
      · show (hdrFind d'' k).isSome = true
        rw [m4 (by simpa using hc), hps]
        exact hsci k hk
    · intro hc
      have hce : hdrHasKey e' k = false := by
        have h2 : hdrHasKey e' k = hdrHasKey err k := congrArg Option.isSome hpe
        rw [h2]
        exact hc
      rw [m2 hce, hps]
    · intro hc
      have hcd : hdrHasKey d' k = false := by
        have h2 : hdrHasKey d' k = hdrHasKey dq k := congrArg Option.isSome hpd
        rw [h2]
        exact hc
      rw [m4 hcd, hps]

/-- Science template with the full WCS positional keyword set. -/
def sciC4 : Header :=
  [⟨"CD1_1", HVal.num 1, ""⟩, ⟨"CD1_2", HVal.num 0, ""⟩, ⟨"CD2_1", HVal.num 0, ""⟩,
   ⟨"CD2_2", HVal.num 1, ""⟩, ⟨"CRPIX1", HVal.num 5, ""⟩, ⟨"CRPIX2", HVal.num 5, ""⟩,
   ⟨"CRVAL1", HVal.num 150, ""⟩, ⟨"CRVAL2", HVal.num 2, ""⟩,
   ⟨"CTYPE1", HVal.str "RA---TAN", ""⟩, ⟨"CTYPE2", HVal.str "DEC--TAN", ""⟩,
   ⟨"WCSNAME", HVal.str "DRZWCS", ""⟩]

/-- Error template lacking most of the WCS set. -/
def errC4 : Header := [⟨"CD1_1", HVal.num 9, ""⟩, ⟨"BSCALE", HVal.num 1, ""⟩]

/-- Data-quality template lacking the whole WCS set. -/
def dqC4 : Header := [⟨"BZERO", HVal.num 0, ""⟩]

theorem C4_wcs_propagation_witness :
    (∀ k ∈ WCS_KEYWORDS, (hdrFind sciC4 k).isSome = true) ∧
    ∃ sci' err' dq',
      cleanTemplates (some sciC4) (some errC4) (some dqC4)
        = Except.ok (some sci', some err', some dq') ∧
      ∀ k ∈ WCS_KEYWORDS,
        hdrHasKey err' k = true ∧ hdrHasKey dq' k = true ∧
        (hdrHasKey errC4 k = false → hdrFind err' k = hdrFind sciC4 k) ∧
        (hdrHasKey dqC4 k = false → hdrFind dq' k = hdrFind sciC4 k) :=
  ⟨by decide, C4_wcs_propagation sciC4 errC4 dqC4 (by decide)⟩

-- C7/C8/C10 machinery: what writeDrizKeywords puts into the header.

theorem append_right_ne (p : String) {a b : String} (h : a ≠ b) : p ++ a ≠ p ++ b := by
  intro he
  apply h
  have hd : p.data ++ a.data = p.data ++ b.data := congrArg String.data he
  have hab : a.data = b.data := List.append_cancel_left hd
  cases a
  cases b
  cases hab
  rfl

theorem writeDrizKeywords_find_ne (hdr : Header) (imgnum : Nat)
    (dict : List (String × HVal × String)) {k : String}
    (hk : ∀ e ∈ dict, k ≠ ("D" ++ fmt03 imgnum) ++ e.1) :
    hdrFind (writeDrizKeywords hdr imgnum dict) k = hdrFind hdr k := by
  induction dict generalizing hdr with
  | nil => rfl
  | cons e rest ih =>
      have hstep : writeDrizKeywords hdr imgnum (e :: rest)
          = writeDrizKeywords
              (hdrUpdate hdr (("D" ++ fmt03 imgnum) ++ e.1) e.2.1 (some e.2.2))
              imgnum rest := rfl
      rw [hstep, ih _ (fun e' he' => hk e' (List.mem_cons_of_mem e he'))]
      exact hdrFind_update_ne hdr _ _ (hk e (List.mem_cons_self e rest))

theorem writeDrizKeywords_find (imgnum : Nat) :
    ∀ (dict : List (String × HVal × String)) (hdr : Header),
      (dict.map (fun e => e.1)).Nodup →
      ∀ {code : String} {v : HVal} {cm : String}, (code, v, cm) ∈ dict →
        hdrFind (writeDrizKeywords hdr imgnum dict) (("D" ++ fmt03 imgnum) ++ code)
          = some v := by
  intro dict
  induction dict with
  | nil => intro hdr _ _ _ _ hmem; exact absurd hmem (List.not_mem_nil _)
  | cons e rest ih =>
      intro hdr hnd code v cm hmem
      have hstep : writeDrizKeywords hdr imgnum (e :: rest)
          = writeDrizKeywords
              (hdrUpdate hdr (("D" ++ fmt03 imgnum) ++ e.1) e.2.1 (some e.2.2))
              imgnum rest := rfl
      rw [List.map_cons] at hnd
      have hnd' := (List.nodup_cons.mp hnd).2
      rcases List.mem_cons.mp hmem with he | hr
      · have hecode : e.1 = code := by rw [← he]
        have hnot : e.1 ∉ rest.map (fun e => e.1) := (List.nodup_cons.mp hnd).1
        have hk : ∀ e' ∈ rest,
            (("D" ++ fmt03 imgnum) ++ code) ≠ ("D" ++ fmt03 imgnum) ++ e'.1 := by
          intro e' he'
          apply append_right_ne
          intro hc
          apply hnot
          rw [hecode, hc]
          exact List.mem_map_of_mem _ he'
        rw [hstep, writeDrizKeywords_find_ne _ imgnum rest hk]
        have hv : e.2.1 = v := by rw [← he]
        rw [← hecode, ← hv]
        exact hdrFind_update_self hdr _ _ _
      · rw [hstep]
        exact ih _ hnd' hr

theorem chipDrizDict_keys_nodup (single : Bool) (units : String) (pl : ChipRecord) :
    ((chipDrizDict single units pl).map (fun e => e.1)).Nodup := by
  simp only [chipDrizDict, List.map_cons, List.map_nil]
  decide

set_option maxRecDepth 10000 in
set_option maxHeartbeats 1000000 in
theorem fmt03_len3 : ∀ n, n < 1000 → (fmt03 n).length = 3 := by decide

/-- Chips are processed in list order: the chip at position `|pre|` is written
with image number `|pre| + 1`. -/
theorem addDrizChips_append (single : Bool) (units : String) :
    ∀ (l1 l2 : List ChipRecord) (hdr : Header) (imgnum : Nat),
      addDrizChips single units hdr imgnum (l1 ++ l2)
        = addDrizChips single units (addDrizChips single units hdr imgnum l1)
            (imgnum + l1.length) l2 := by
  intro l1
  induction l1 with
  | nil => intro l2 hdr imgnum; simp [addDrizChips]
  | cons pl rest ih =>
      intro l2 hdr imgnum
      have hlen : imgnum + (pl :: rest).length = (imgnum + 1) + rest.length := by
        rw [List.length_cons]
        omega
      rw [hlen]
      simp only [List.cons_append, addDrizChips]
      exact ih l2 _ (imgnum + 1)

/-- C7: provenance keywords are written in chip order starting at index 1,
each under a key formed by the fixed prefix `D` plus the zero-padded
three-digit chip index followed by the short field code (all keys for chip
index 2 are prefixed `D002`); values longer than a field's declared maximum
are truncated to that length and values within the limit are preserved
exactly. -/
theorem C7_provenance_keys (single : Bool) (units : String) (pl : ChipRecord)
    (imgnum : Nat) (hdr : Header) (h1 : 1 ≤ imgnum) (h2 : imgnum ≤ 999) :
    (fmt03 imgnum).length = 3 ∧
    ("D" ++ fmt03 2 = "D002") ∧
    (∀ code v cm, (code, v, cm) ∈ chipDrizDict single units pl →
      hdrFind (writeDrizKeywords hdr imgnum (chipDrizDict single units pl))
          (("D" ++ fmt03 imgnum) ++ code) = some v) ∧
    (hdrFind (writeDrizKeywords hdr imgnum (chipDrizDict single units pl))
        (("D" ++ fmt03 imgnum) ++ "VER")
      = some (HVal.str (strTake pl.driz_version 44))) ∧
    (pl.driz_version.length ≤ 44 →
      hdrFind (writeDrizKeywords hdr imgnum (chipDrizDict single units pl))
          (("D" ++ fmt03 imgnum) ++ "VER") = some (HVal.str pl.driz_version)) ∧
    (hdrFind (writeDrizKeywords hdr imgnum (chipDrizDict single units pl))
        (("D" ++ fmt03 imgnum) ++ "DATA")
      = some (HVal.str (strTake pl.data 64))) ∧
    (pl.data.length ≤ 64 →
      hdrFind (writeDrizKeywords hdr imgnum (chipDrizDict single units pl))
          (("D" ++ fmt03 imgnum) ++ "DATA") = some (HVal.str pl.data)) ∧
    (∀ (pre post : List ChipRecord) (h0 : Header) (plc : ChipRecord),
      addDrizChips single units h0 0 (pre ++ plc :: post)
        = addDrizChips single units
            (writeDrizKeywords (addDrizChips single units h0 0 pre)
              (pre.length + 1) (chipDrizDict single units plc))
            (pre.length + 1) post) := by
  have hVER := writeDrizKeywords_find imgnum (chipDrizDict single units pl) hdr
    (chipDrizDict_keys_nodup single units pl)
    (show ("VER", HVal.str (strTake pl.driz_version 44), "Drizzle, task version")
        ∈ chipDrizDict single units pl by simp [chipDrizDict])
  have hDATA := writeDrizKeywords_find imgnum (chipDrizDict single units pl) hdr
    (chipDrizDict_keys_nodup single units pl)
    (show ("DATA", HVal.str (strTake pl.data 64), "Drizzle, input data image")
        ∈ chipDrizDict single units pl by simp [chipDrizDict])
  refine ⟨fmt03_len3 imgnum (by omega), by decide, ?_, hVER, ?_, hDATA, ?_, ?_⟩
  · intro code v cm hmem
    exact writeDrizKeywords_find imgnum (chipDrizDict single units pl) hdr
      (chipDrizDict_keys_nodup single units pl) hmem
  · intro hle
    rw [hVER, strTake_of_le _ hle]
  · intro hle
    rw [hDATA, strTake_of_le _ hle]
  · intro pre post h0 plc
    rw [addDrizChips_append single units pre (plc :: post) h0 0]
    simp only [Nat.zero_add, addDrizChips]

theorem C7_provenance_keys_witness :
    (1 ≤ 2 ∧ 2 ≤ 999) ∧
    ((fmt03 2).length = 3 ∧
    ("D" ++ fmt03 2 = "D002") ∧
    (∀ code v cm, (code, v, cm) ∈ chipDrizDict false "cps" baseChip →
      hdrFind (writeDrizKeywords [] 2 (chipDrizDict false "cps" baseChip))
          (("D" ++ fmt03 2) ++ code) = some v) ∧
    (hdrFind (writeDrizKeywords [] 2 (chipDrizDict false "cps" baseChip))
        (("D" ++ fmt03 2) ++ "VER")
      = some (HVal.str (strTake baseChip.driz_version 44))) ∧
    (baseChip.driz_version.length ≤ 44 →
      hdrFind (writeDrizKeywords [] 2 (chipDrizDict false "cps" baseChip))
          (("D" ++ fmt03 2) ++ "VER") = some (HVal.str baseChip.driz_version)) ∧
    (hdrFind (writeDrizKeywords [] 2 (chipDrizDict false "cps" baseChip))
        (("D" ++ fmt03 2) ++ "DATA")
      = some (HVal.str (strTake baseChip.data 64))) ∧
    (baseChip.data.length ≤ 64 →
      hdrFind (writeDrizKeywords [] 2 (chipDrizDict false "cps" baseChip))
          (("D" ++ fmt03 2) ++ "DATA") = some (HVal.str baseChip.data)) ∧
    (∀ (pre post : List ChipRecord) (h0 : Header) (plc : ChipRecord),
      addDrizChips false "cps" h0 0 (pre ++ plc :: post)
        = addDrizChips false "cps"
            (writeDrizKeywords (addDrizChips false "cps" h0 0 pre)
              (pre.length + 1) (chipDrizDict false "cps" plc))
            (pre.length + 1) post)) :=
  ⟨⟨by decide, by decide⟩,
   C7_provenance_keys false "cps" baseChip 2 [] (by decide) (by decide)⟩

/-- C8: the weighting-scale provenance field resolves to the exposure time
for mode `exptime`, its square for mode `expsq`, and the literal configured
value otherwise - including the spec's concrete instances at exposure time
150.0 (150.0, 22500.0 and the literal `0.5`). -/
theorem C8_weighting_scale (single : Bool) (units : String) (pl : ChipRecord)
    (imgnum : Nat) (hdr : Header) :
    hdrFind (writeDrizKeywords hdr imgnum (chipDrizDict single units pl))
        (("D" ++ fmt03 imgnum) ++ "WTSC")
      = some (if pl.wt_scl = "exptime" then HVal.num pl.exptime
              else if pl.wt_scl = "expsq" then HVal.num (pl.exptime * pl.exptime)
              else HVal.str pl.wt_scl) ∧
    resolveWtScl "exptime" 150 = HVal.num 150 ∧
    resolveWtScl "expsq" 150 = HVal.num 22500 ∧
    resolveWtScl "0.5" 150 = HVal.str "0.5" := by
  refine ⟨?_, by decide, ?_, by decide⟩
  · exact writeDrizKeywords_find imgnum (chipDrizDict single units pl) hdr
      (chipDrizDict_keys_nodup single units pl)
      (show ("WTSC", resolveWtScl pl.wt_scl pl.exptime,
          "Drizzle, weighting factor for input image")
        ∈ chipDrizDict single units pl by simp [chipDrizDict])
  · unfold resolveWtScl
    rw [if_neg (by decide), if_pos rfl]
    norm_num

/-- C10: in single-exposure mode the `OUDA`/`OUWE`/`OUCO` provenance fields
record the combined-product paths (`outFinal`/`outWeight`/`outContext`), not
the single-exposure output paths, even though `MASK` does switch to the
single-exposure mask and the resolved write target is `outSingle`. -/
theorem C10_single_mode_provenance (units : String) (pl : ChipRecord)
    (imgnum : Nat) (hdr : Header)
    (plist : List ChipRecord) (hne : plist ≠ []) (build : Bool)
    (wcs : Option WCSInfo) :
    hdrFind (writeDrizKeywords hdr imgnum (chipDrizDict true units pl))
        (("D" ++ fmt03 imgnum) ++ "OUDA")
      = some (HVal.str (strTake pl.outFinal 64)) ∧
    hdrFind (writeDrizKeywords hdr imgnum (chipDrizDict true units pl))
        (("D" ++ fmt03 imgnum) ++ "OUWE")
      = some (HVal.str (strTake pl.outWeight 64)) ∧
    hdrFind (writeDrizKeywords hdr imgnum (chipDrizDict true units pl))
        (("D" ++ fmt03 imgnum) ++ "OUCO")
      = some (HVal.str (match pl.outContext with
                        | none => ""
                        | some s => strTake s 64)) ∧
    hdrFind (writeDrizKeywords hdr imgnum (chipDrizDict true units pl))
        (("D" ++ fmt03 imgnum) ++ "MASK")
      = some (HVal.str (strTake pl.singleDrizMask 64)) ∧
    (OutputImage_init plist build true false wcs).outdata
      = (plist.getD 0 default).outSingle := by
  refine ⟨?_, ?_, ?_, ?_, by simp [OutputImage_init]⟩
  · exact writeDrizKeywords_find imgnum _ hdr (chipDrizDict_keys_nodup true units pl)
      (show ("OUDA", HVal.str (strTake pl.outFinal 64), "Drizzle, output data image")
        ∈ chipDrizDict true units pl by simp [chipDrizDict])
  · exact writeDrizKeywords_find imgnum _ hdr (chipDrizDict_keys_nodup true units pl)
      (show ("OUWE", HVal.str (strTake pl.outWeight 64), "Drizzle, output weighting image")
        ∈ chipDrizDict true units pl by simp [chipDrizDict])
  · exact writeDrizKeywords_find imgnum _ hdr (chipDrizDict_keys_nodup true units pl)
      (show ("OUCO", HVal.str (match pl.outContext with
                               | none => ""
                               | some s => strTake s 64),
          "Drizzle, output context image")
        ∈ chipDrizDict true units pl by simp [chipDrizDict])
  · exact writeDrizKeywords_find imgnum _ hdr (chipDrizDict_keys_nodup true units pl)
      (show ("MASK", HVal.str (strTake (if true then pl.singleDrizMask else pl.finalMask) 64),
          "Drizzle, input weighting image")
        ∈ chipDrizDict true units pl by simp [chipDrizDict])

theorem C10_single_mode_provenance_witness :
    ([baseChip] ≠ ([] : List ChipRecord)) ∧
    (hdrFind (writeDrizKeywords [] 1 (chipDrizDict true "cps" baseChip))
        (("D" ++ fmt03 1) ++ "OUDA")
      = some (HVal.str (strTake baseChip.outFinal 64)) ∧
    hdrFind (writeDrizKeywords [] 1 (chipDrizDict true "cps" baseChip))
        (("D" ++ fmt03 1) ++ "OUWE")
      = some (HVal.str (strTake baseChip.outWeight 64)) ∧
    hdrFind (writeDrizKeywords [] 1 (chipDrizDict true "cps" baseChip))
        (("D" ++ fmt03 1) ++ "OUCO")
      = some (HVal.str (match baseChip.outContext with
                        | none => ""
                        | some s => strTake s 64)) ∧
    hdrFind (writeDrizKeywords [] 1 (chipDrizDict true "cps" baseChip))
        (("D" ++ fmt03 1) ++ "MASK")
      = some (HVal.str (strTake baseChip.singleDrizMask 64)) ∧
    (OutputImage_init [baseChip] true true false none).outdata
      = ([baseChip].getD 0 default).outSingle) :=
  ⟨by simp,
   C10_single_mode_provenance "cps" baseChip 1 [] [baseChip] (by simp) true none⟩

-- C9 machinery.

theorem remove_distortion_find_eq (distKeys : List String) :
    ∀ (h : Header) (k : String),
      hdrFind (remove_distortion_keywords distKeys h) k
        = if k ∈ distKeys then none else hdrFind h k := by
  induction distKeys with
  | nil => intro h k; simp [remove_distortion_keywords]
  | cons d rest ih =>
      intro h k
      have hstep : remove_distortion_keywords (d :: rest) h
          = remove_distortion_keywords rest (hdrEraseAll h d) := rfl
      rw [hstep, ih]
      by_cases hk : k ∈ rest
      · simp [hk]
      · rw [if_neg hk, hdrFind_eraseAll]
        by_cases hkd : k = d
        · simp [hkd]
        · have hknm : k ∉ d :: rest := by
            intro hc
            rcases List.mem_cons.mp hc with hx | hx
            exacts [hkd hx, hk hx]
          simp [hkd, hknm]

/-- The keywords `addWCSKeywords` writes or seeds. -/
def wcsWrittenKeys : List String :=
  ["ORIENTAT", "CD1_1", "CD1_2", "CD2_1", "CD2_2", "CRVAL1", "CRVAL2",
   "CRPIX1", "CRPIX2", "WCSNAME", "VAFACTOR", "CTYPE1", "CTYPE2"]

/-- C9: the WCS keyword sync writes the orientation angle, the four CD matrix
elements, the reference sky coordinate, the reference pixel and the solution
name, sets `VAFACTOR` to the neutral value 1.0, seeds the projection-type
keywords from the model exactly when the header lacks `CTYPE1` (leaving them
untouched otherwise), and removes the distortion-specific keywords if and
only if the back-projection flag is false (for a distortion-keyword set
disjoint from the keywords the sync itself writes). -/
theorem C9_wcs_sync (w : WCSInfo) (hdr : Header) (blot : Bool)
    (distKeys : List String)
    (hdisj : ∀ k ∈ distKeys, k ∉ wcsWrittenKeys) :
    hdrFind (addWCSKeywords w hdr blot distKeys) "ORIENTAT"
        = some (HVal.num w.orientat) ∧
    hdrFind (addWCSKeywords w hdr blot distKeys) "CD1_1" = some (HVal.num w.cd11) ∧
    hdrFind (addWCSKeywords w hdr blot distKeys) "CD1_2" = some (HVal.num w.cd12) ∧
    hdrFind (addWCSKeywords w hdr blot distKeys) "CD2_1" = some (HVal.num w.cd21) ∧
    hdrFind (addWCSKeywords w hdr blot distKeys) "CD2_2" = some (HVal.num w.cd22) ∧
    hdrFind (addWCSKeywords w hdr blot distKeys) "CRVAL1" = some (HVal.num w.crval1) ∧
    hdrFind (addWCSKeywords w hdr blot distKeys) "CRVAL2" = some (HVal.num w.crval2) ∧
    hdrFind (addWCSKeywords w hdr blot distKeys) "CRPIX1" = some (HVal.num w.crpix1) ∧
    hdrFind (addWCSKeywords w hdr blot distKeys) "CRPIX2" = some (HVal.num w.crpix2) ∧
    hdrFind (addWCSKeywords w hdr blot distKeys) "WCSNAME" = some (HVal.str w.name) ∧
    hdrFind (addWCSKeywords w hdr blot distKeys) "VAFACTOR" = some (HVal.num 1) ∧
    (hdrHasKey hdr "CTYPE1" = false →
      hdrFind (addWCSKeywords w hdr blot distKeys) "CTYPE1" = some (HVal.str w.ctype1) ∧
      hdrFind (addWCSKeywords w hdr blot distKeys) "CTYPE2" = some (HVal.str w.ctype2)) ∧
    (hdrHasKey hdr "CTYPE1" = true →
      hdrFind (addWCSKeywords w hdr blot distKeys) "CTYPE1" = hdrFind hdr "CTYPE1" ∧
      hdrFind (addWCSKeywords w hdr blot distKeys) "CTYPE2" = hdrFind hdr "CTYPE2") ∧
    (blot = false → ∀ k ∈ distKeys,
      hdrHasKey (addWCSKeywords w hdr blot distKeys) k = false) ∧
    (blot = true → ∀ k ∈ distKeys,
      hdrFind (addWCSKeywords w hdr blot distKeys) k = hdrFind hdr k) := by
  have hnot : ∀ k ∈ wcsWrittenKeys, k ∉ distKeys := fun k hk hc => (hdisj k hc) hk
  refine ⟨?_, ?_, ?_, ?_, ?_, ?_, ?_, ?_, ?_, ?_, ?_, ?_, ?_, ?_, ?_⟩
  · cases blot <;> by_cases hct : hdrHasKey hdr "CTYPE1" <;>
      simp [addWCSKeywords, remove_distortion_find_eq, hdrFind_update_ne,
        hdrFind_update_self, hdrHasKey_update_ne, hct, hnot "ORIENTAT" (by decide)]
  · cases blot <;> by_cases hct : hdrHasKey hdr "CTYPE1" <;>
      simp [addWCSKeywords, remove_distortion_find_eq, hdrFind_update_ne,
        hdrFind_update_self, hdrHasKey_update_ne, hct, hnot "CD1_1" (by decide)]
  · cases blot <;> by_cases hct : hdrHasKey hdr "CTYPE1" <;>
      simp [addWCSKeywords, remove_distortion_find_eq, hdrFind_update_ne,
        hdrFind_update_self, hdrHasKey_update_ne, hct, hnot "CD1_2" (by decide)]
  · cases blot <;> by_cases hct : hdrHasKey hdr "CTYPE1" <;>
      simp [addWCSKeywords, remove_distortion_find_eq, hdrFind_update_ne,
        hdrFind_update_self, hdrHasKey_update_ne, hct, hnot "CD2_1" (by decide)]
  · cases blot <;> by_cases hct : hdrHasKey hdr "CTYPE1" <;>
      simp [addWCSKeywords, remove_distortion_find_eq, hdrFind_update_ne,
        hdrFind_update_self, hdrHasKey_update_ne, hct, hnot "CD2_2" (by decide)]
  · cases blot <;> by_cases hct : hdrHasKey hdr "CTYPE1" <;>
      simp [addWCSKeywords, remove_distortion_find_eq, hdrFind_update_ne,
        hdrFind_update_self, hdrHasKey_update_ne, hct, hnot "CRVAL1" (by decide)]
  · cases blot <;> by_cases hct : hdrHasKey hdr "CTYPE1" <;>
      simp [addWCSKeywords, remove_distortion_find_eq, hdrFind_update_ne,
        hdrFind_update_self, hdrHasKey_update_ne, hct, hnot "CRVAL2" (by decide)]
  · cases blot <;> by_cases hct : hdrHasKey hdr "CTYPE1" <;>
      simp [addWCSKeywords, remove_distortion_find_eq, hdrFind_update_ne,
        hdrFind_update_self, hdrHasKey_update_ne, hct, hnot "CRPIX1" (by decide)]
  · cases blot <;> by_cases hct : hdrHasKey hdr "CTYPE1" <;>
      simp [addWCSKeywords, remove_distortion_find_eq, hdrFind_update_ne,
        hdrFind_update_self, hdrHasKey_update_ne, hct, hnot "CRPIX2" (by decide)]
  · cases blot <;> by_cases hct : hdrHasKey hdr "CTYPE1" <;>
      simp [addWCSKeywords, remove_distortion_find_eq, hdrFind_update_ne,
        hdrFind_update_self, hdrHasKey_update_ne, hct, hnot "WCSNAME" (by decide)]
  · cases blot <;> by_cases hct : hdrHasKey hdr "CTYPE1" <;>
      simp [addWCSKeywords, remove_distortion_find_eq, hdrFind_update_ne,
        hdrFind_update_self, hdrHasKey_update_ne, hct, hnot "VAFACTOR" (by decide)]
  · intro hct
    cases blot <;>
      simp [addWCSKeywords, remove_distortion_find_eq, hdrFind_update_ne,
        hdrFind_update_self, hdrHasKey_update_ne, hct,
        hnot "CTYPE1" (by decide), hnot "CTYPE2" (by decide)]
  · intro hct
    cases blot <;>
      simp [addWCSKeywords, remove_distortion_find_eq, hdrFind_update_ne,
        hdrFind_update_self, hdrHasKey_update_ne, hct,
        hnot "CTYPE1" (by decide), hnot "CTYPE2" (by decide)]
  · intro hb k hk
    subst hb
    by_cases hct : hdrHasKey hdr "CTYPE1" <;>
      simp [addWCSKeywords, hdrHasKey, remove_distortion_find_eq,
        hdrHasKey_update_ne, hct, hk]
  · intro hb k hk
    subst hb
    have e1 : k ≠ "ORIENTAT" := fun he => (hdisj k hk) (he ▸ (by decide))
    have e2 : k ≠ "CD1_1" := fun he => (hdisj k hk) (he ▸ (by decide))
    have e3 : k ≠ "CD1_2" := fun he => (hdisj k hk) (he ▸ (by decide))
    have e4 : k ≠ "CD2_1" := fun he => (hdisj k hk) (he ▸ (by decide))
    have e5 : k ≠ "CD2_2" := fun he => (hdisj k hk) (he ▸ (by decide))
    have e6 : k ≠ "CRVAL1" := fun he => (hdisj k hk) (he ▸ (by decide))
    have e7 : k ≠ "CRVAL2" := fun he => (hdisj k hk) (he ▸ (by decide))
    have e8 : k ≠ "CRPIX1" := fun he => (hdisj k hk) (he ▸ (by decide))
    have e9 : k ≠ "CRPIX2" := fun he => (hdisj k hk) (he ▸ (by decide))
    have e10 : k ≠ "WCSNAME" := fun he => (hdisj k hk) (he ▸ (by decide))
    have e11 : k ≠ "VAFACTOR" := fun he => (hdisj k hk) (he ▸ (by decide))
    have e12 : k ≠ "CTYPE1" := fun he => (hdisj k hk) (he ▸ (by decide))
    have e13 : k ≠ "CTYPE2" := fun he => (hdisj k hk) (he ▸ (by decide))
    by_cases hct : hdrHasKey hdr "CTYPE1" <;>
      simp [addWCSKeywords, hdrFind_update_ne, hdrHasKey_update_ne, hct,
        e1, e2, e3, e4, e5, e6, e7, e8, e9, e10, e11, e12, e13]

/-- Concrete output WCS for the C9 witness. -/
def wC9 : WCSInfo :=
  { orientat := 30, cd11 := 1, cd12 := 0, cd21 := 0, cd22 := 1,
    crval1 := 150, crval2 := 2, crpix1 := 5, crpix2 := 5,
    name := "DRZWCS", ctype1 := "RA---TAN", ctype2 := "DEC--TAN" }

/-- Concrete header carrying a distortion keyword and existing CTYPEs. -/
def hdrC9 : Header :=
  [⟨"A_0_2", HVal.num 3, ""⟩, ⟨"CTYPE1", HVal.str "OLD1", ""⟩,
   ⟨"CTYPE2", HVal.str "OLD2", ""⟩]

/-- Concrete distortion-keyword set for the C9 witness. -/
def distC9 : List String := ["A_0_2", "A_ORDER", "B_ORDER"]

theorem C9_wcs_sync_witness :
    (∀ k ∈ distC9, k ∉ wcsWrittenKeys) ∧
    (hdrFind (addWCSKeywords wC9 hdrC9 false distC9) "ORIENTAT"
        = some (HVal.num wC9.orientat) ∧
    hdrFind (addWCSKeywords wC9 hdrC9 false distC9) "CD1_1" = some (HVal.num wC9.cd11) ∧
    hdrFind (addWCSKeywords wC9 hdrC9 false distC9) "CD1_2" = some (HVal.num wC9.cd12) ∧
    hdrFind (addWCSKeywords wC9 hdrC9 false distC9) "CD2_1" = some (HVal.num wC9.cd21) ∧
    hdrFind (addWCSKeywords wC9 hdrC9 false distC9) "CD2_2" = some (HVal.num wC9.cd22) ∧
    hdrFind (addWCSKeywords wC9 hdrC9 false distC9) "CRVAL1" = some (HVal.num wC9.crval1) ∧
    hdrFind (addWCSKeywords wC9 hdrC9 false distC9) "CRVAL2" = some (HVal.num wC9.crval2) ∧
    hdrFind (addWCSKeywords wC9 hdrC9 false distC9) "CRPIX1" = some (HVal.num wC9.crpix1) ∧
    hdrFind (addWCSKeywords wC9 hdrC9 false distC9) "CRPIX2" = some (HVal.num wC9.crpix2) ∧
    hdrFind (addWCSKeywords wC9 hdrC9 false distC9) "WCSNAME" = some (HVal.str wC9.name) ∧
    hdrFind (addWCSKeywords wC9 hdrC9 false distC9) "VAFACTOR" = some (HVal.num 1) ∧
    (hdrHasKey hdrC9 "CTYPE1" = false →
      hdrFind (addWCSKeywords wC9 hdrC9 false distC9) "CTYPE1"
          = some (HVal.str wC9.ctype1) ∧
      hdrFind (addWCSKeywords wC9 hdrC9 false distC9) "CTYPE2"
          = some (HVal.str wC9.ctype2)) ∧
    (hdrHasKey hdrC9 "CTYPE1" = true →
      hdrFind (addWCSKeywords wC9 hdrC9 false distC9) "CTYPE1"
          = hdrFind hdrC9 "CTYPE1" ∧
      hdrFind (addWCSKeywords wC9 hdrC9 false distC9) "CTYPE2"
          = hdrFind hdrC9 "CTYPE2") ∧
    (false = false → ∀ k ∈ distC9,
      hdrHasKey (addWCSKeywords wC9 hdrC9 false distC9) k = false) ∧
    (false = true → ∀ k ∈ distC9,
      hdrFind (addWCSKeywords wC9 hdrC9 false distC9) k = hdrFind hdrC9 k)) :=
  ⟨by decide, C9_wcs_sync wC9 hdrC9 false distC9 (by decide)⟩
